import Mathlib

/-!
# Verification of the cargo-buckal core against its specification

Shallow embedding of the cargo-buckal sources (final revision: the
`src/buckify/` module family, `src/buck.rs`, `src/resolve.rs`,
`src/platform.rs`) together with proofs settling the specification claims.

Modelling conventions:
* `BTreeSet<String>` is a sorted duplicate-free `List String`
  (`btsInsert` keeps it sorted, matching the canonical content-equality of
  the Rust type); `BTreeSet<Os>` similarly via `osInsert`.
* `BTreeMap<K, V>` is an association list with duplicate-free keys,
  mutated only through `mapInsert` (overwrite) and `mapInsertIfAbsent`
  (`entry(..).or_insert(..)` / `or_default` patterns).
* Functions that `bail!` return `Except String`; functions that can panic
  (`unwrap`, `expect`) return `Option`; diagnostics printed by
  `buckal_warn!` / `buckal_note!` are collected in result lists.
* Subprocess results (the `rustc --print=cfg` cache) are modelled by the
  source's own `fallback_cfgs_for_triple` tables, which `platform.rs`
  ships precisely so that platform mapping works without the subprocess.
-/

namespace Buckal

/-! ## String-keyed maps and sorted string sets (BTreeMap / BTreeSet) -/

/-- Association-list lookup, modelling `BTreeMap::get`. -/
def mapLookup {V : Type} (m : List (String × V)) (k : String) : Option V :=
  match m with
  | [] => none
  | (k', v) :: rest => if k' = k then some v else mapLookup rest k

/-- `BTreeMap::contains_key`. -/
def mapContains {V : Type} (m : List (String × V)) (k : String) : Bool :=
  (mapLookup m k).isSome

/-- `BTreeMap::insert`: overwrite the value when the key is present,
otherwise add the entry. -/
def mapInsert {V : Type} (m : List (String × V)) (k : String) (v : V) :
    List (String × V) :=
  match m with
  | [] => [(k, v)]
  | (k', v') :: rest =>
      if k' = k then (k', v) :: rest else (k', v') :: mapInsert rest k v

/-- `BTreeMap::entry(k).or_insert(v)`: insert only when the key is absent. -/
def mapInsertIfAbsent {V : Type} (m : List (String × V)) (k : String) (v : V) :
    List (String × V) :=
  if mapContains m k then m else mapInsert m k v

/-- Read the entry a `BTreeMap::entry(k).or_default()` call would expose. -/
def mapGetOrDefault {V : Type} (m : List (String × V)) (k : String) (d : V) : V :=
  (mapLookup m k).getD d

/-- `BTreeSet<String>::insert`: no-op on duplicates, otherwise insert in
sorted position (the canonical representation of the B-tree's content). -/
def btsInsert (s : List String) (x : String) : List String :=
  if x ∈ s then s else List.orderedInsert (· ≤ ·) x s

/-- Build a `BTreeSet<String>` from a list (`Set::from` / `collect`). -/
def btsOfList (l : List String) : List String :=
  l.foldl btsInsert []

/-! ## Kernel-reducible string helpers

The embedding avoids the `String` builtins implemented by well-founded
recursion (`splitOn`, `isPrefixOf`, `replace`, ...), which the kernel
cannot evaluate, in favour of the equivalent structural operations on the
character list.  Separators and patterns used by the sources are single
ASCII characters, for which these agree with the Rust operations. -/

/-- `str::split` on a single-character separator (split positions kept,
like `String::splitOn`). -/
def splitChar (sep : Char) : List Char → List (List Char)
  | [] => [[]]
  | c :: rest =>
      match splitChar sep rest with
      | [] => [[]]
      | cur :: parts =>
          if c = sep then [] :: cur :: parts else (c :: cur) :: parts

/-- `String::splitOn` with a one-character separator. -/
def strSplitOn (s : String) (sep : Char) : List String :=
  (splitChar sep s.data).map String.mk

/-- `[String]::join(sep)` / `String.intercalate`. -/
def joinSep (sep : String) : List String → String
  | [] => ""
  | x :: rest => rest.foldl (fun acc y => acc ++ sep ++ y) x

/-- `str::replace` of one character by another. -/
def replaceChar (a b : Char) (s : String) : String :=
  String.mk (s.data.map (fun c => if c = a then b else c))

/-- `String::isPrefixOf` via the character lists. -/
def strIsPfx (p s : String) : Bool :=
  p.data.isPrefixOf s.data

/-- `str::ends_with` via the character lists. -/
def strEndsWith (s suffix : String) : Bool :=
  suffix.data.isSuffixOf s.data

/-- `String::drop`. -/
def strDrop (s : String) (n : Nat) : String :=
  String.mk (s.data.drop n)

/-- `String::dropRight`. -/
def strDropRight (s : String) (n : Nat) : String :=
  String.mk (s.data.take (s.data.length - n))

/-! ## The `Os` enum (src/platform.rs) -/

/-- Closed enum of supported target operating systems
(declaration order `Windows < Macos < Linux`, as in the Rust `derive(Ord)`). -/
inductive Os : Type
  | windows
  | macos
  | linux
deriving DecidableEq, Repr

/-- Declaration index, fixing the `BTreeSet<Os>` iteration order. -/
def Os.idx : Os → Nat
  | .windows => 0
  | .macos => 1
  | .linux => 2

/-- `Os::key`. -/
def Os.key : Os → String
  | .windows => "windows"
  | .macos => "macos"
  | .linux => "linux"

/-- `Os::buck_label`. -/
def Os.buckLabel : Os → String
  | .windows => "prelude//os/constraints:windows"
  | .macos => "prelude//os/constraints:macos"
  | .linux => "prelude//os/constraints:linux"

/-- `BTreeSet<Os>::insert` on the canonical sorted representation. -/
def osInsert (s : List Os) (x : Os) : List Os :=
  if x ∈ s then s else List.orderedInsert (fun a b => a.idx ≤ b.idx) x s

/-- `BTreeSet<Os>::extend`. -/
def osExtend (s : List Os) (l : List Os) : List Os :=
  l.foldl osInsert s

/-- `platform::buck_labels`: map an OS set to its sorted label set. -/
def buck_labels (oses : List Os) : List String :=
  btsOfList (oses.map Os.buckLabel)

/-! ## Cargo platform predicates (vendored `cargo_platform` semantics)

`cargo_platform::Platform` is an external dependency of the repository;
its data model and `matches` semantics are embedded here because
`oses_from_platform` and `set_deps` are defined in terms of them. -/

/-- One configuration flag from `rustc --print=cfg`:
either a bare name (`unix`) or a `key="value"` pair. -/
inductive Cfg : Type
  | flag (s : String)
  | keyPair (k v : String)
deriving DecidableEq, Repr

/-- A `cfg(...)` boolean expression over configuration flags. -/
inductive CfgExpr : Type
  | val (c : Cfg)
  | allE (es : List CfgExpr)
  | anyE (es : List CfgExpr)
  | notE (e : CfgExpr)

mutual

/-- `CfgExpr::matches`. -/
def CfgExpr.eval (cfgs : List Cfg) : CfgExpr → Bool
  | .val c => cfgs.contains c
  | .allE es => CfgExpr.evalAll cfgs es
  | .anyE es => CfgExpr.evalAny cfgs es
  | .notE e => !(CfgExpr.eval cfgs e)

/-- Conjunction over the subexpressions of an `all(...)`. -/
def CfgExpr.evalAll (cfgs : List Cfg) : List CfgExpr → Bool
  | [] => true
  | e :: es => CfgExpr.eval cfgs e && CfgExpr.evalAll cfgs es

/-- Disjunction over the subexpressions of an `any(...)`. -/
def CfgExpr.evalAny (cfgs : List Cfg) : List CfgExpr → Bool
  | [] => false
  | e :: es => CfgExpr.eval cfgs e || CfgExpr.evalAny cfgs es

end

/-- A Cargo target predicate: a bare target-triple name or a `cfg(...)`
expression. -/
inductive Platform : Type
  | name (triple : String)
  | cfg (e : CfgExpr)

/-- `Platform::matches`: a named platform matches only the identical triple;
a cfg expression is evaluated against the triple's flag set. -/
def Platform.matches (p : Platform) (triple : String) (cfgs : List Cfg) : Bool :=
  match p with
  | .name t => t = triple
  | .cfg e => e.eval cfgs

/-! ## The platform resolver (src/platform.rs) -/

/-- `SUPPORTED_TARGETS`: the fixed roster of tier-1 host triples, in source
order. -/
def supportedTargets : List (Os × String) :=
  [(.macos, "aarch64-apple-darwin"),
   (.windows, "aarch64-pc-windows-msvc"),
   (.windows, "x86_64-pc-windows-msvc"),
   (.windows, "x86_64-pc-windows-gnu"),
   (.windows, "i686-pc-windows-msvc"),
   (.linux, "aarch64-unknown-linux-gnu"),
   (.linux, "x86_64-unknown-linux-gnu"),
   (.linux, "i686-unknown-linux-gnu")]

/-- Shorthand for the flag lists below. -/
def cfgRow (arch endian env fam os pw vendor abi : String) (extra : String) :
    List Cfg :=
  [Cfg.keyPair "target_arch" arch,
   Cfg.keyPair "target_endian" endian] ++
  (if env = "" then [] else [Cfg.keyPair "target_env" env]) ++
  [Cfg.keyPair "target_family" fam,
   Cfg.keyPair "target_os" os,
   Cfg.keyPair "target_pointer_width" pw,
   Cfg.keyPair "target_vendor" vendor,
   Cfg.keyPair "target_abi" abi,
   Cfg.flag extra]

/-- `fallback_cfgs_for_triple`: the built-in per-triple flag tables used when
`rustc` cannot be queried.  In this embedding they stand in for the process
cfg cache (`CFG_CACHE`), whose real contents depend on the ambient
toolchain. -/
def fallback_cfgs_for_triple (triple : String) : Option (List Cfg) :=
  if triple = "aarch64-apple-darwin" then
    some (cfgRow "aarch64" "little" "" "unix" "macos" "64" "apple" "" "unix")
  else if triple = "x86_64-apple-darwin" then
    some (cfgRow "x86_64" "little" "" "unix" "macos" "64" "apple" "" "unix")
  else if triple = "aarch64-pc-windows-msvc" then
    some (cfgRow "aarch64" "little" "msvc" "windows" "windows" "64" "pc" "msvc"
      "windows")
  else if triple = "x86_64-pc-windows-msvc" then
    some (cfgRow "x86_64" "little" "msvc" "windows" "windows" "64" "pc" "msvc"
      "windows")
  else if triple = "x86_64-pc-windows-gnu" then
    some (cfgRow "x86_64" "little" "gnu" "windows" "windows" "64" "pc" "gnu"
      "windows")
  else if triple = "i686-pc-windows-msvc" then
    some (cfgRow "x86" "little" "msvc" "windows" "windows" "32" "pc" "msvc"
      "windows")
  else if triple = "aarch64-unknown-linux-gnu" then
    some (cfgRow "aarch64" "little" "gnu" "unix" "linux" "64" "unknown" ""
      "unix")
  else if triple = "x86_64-unknown-linux-gnu" then
    some (cfgRow "x86_64" "little" "gnu" "unix" "linux" "64" "unknown" ""
      "unix")
  else if triple = "i686-unknown-linux-gnu" then
    some (cfgRow "x86" "little" "gnu" "unix" "linux" "32" "unknown" "" "unix")
  else
    none

/-- `oses_from_platform`: the subset of `Os` values whose supported triple
satisfies the predicate, collected as a canonical set.  The cfg database is
a parameter standing for the process-lifetime `cfg_cache`. -/
def oses_from_platform (cfgDb : String → Option (List Cfg))
    (platform : Platform) : List Os :=
  osExtend []
    (supportedTargets.filterMap (fun ot =>
      match cfgDb ot.2 with
      | none => none
      | some cfgs => if platform.matches ot.2 cfgs then some ot.1 else none))

/-- Modelled from the spec: `platform_is_target_only` is referenced by
`src/buckify/deps.rs` but its definition is not among the provided sources.
Per the spec the Platform Resolver "exposes a predicate classifier that
answers whether a predicate is expressible purely in terms of
target-identity attributes (as opposed to attributes that vary by build
profile)".  A bare triple name is target identity; a cfg expression is
target-only when every atom it mentions is a target-identity attribute. -/
def cfgTargetIdentity : Cfg → Bool
  | .flag s => s = "unix" || s = "windows"
  | .keyPair k _ =>
      k ∈ ["target_arch", "target_os", "target_family", "target_env",
           "target_vendor", "target_endian", "target_pointer_width",
           "target_abi"]

mutual

/-- Modelled from the spec: target-identity check on expressions (see
`cfgTargetIdentity`). -/
def CfgExpr.targetOnly : CfgExpr → Bool
  | .val c => cfgTargetIdentity c
  | .allE es => CfgExpr.targetOnlyList es
  | .anyE es => CfgExpr.targetOnlyList es
  | .notE e => CfgExpr.targetOnly e

/-- Modelled from the spec: target-identity check on expression lists. -/
def CfgExpr.targetOnlyList : List CfgExpr → Bool
  | [] => true
  | e :: es => CfgExpr.targetOnly e && CfgExpr.targetOnlyList es

end

/-- Modelled from the spec: the predicate classifier consumed by
`set_deps` (see `CfgExpr.targetOnly`). -/
def platform_is_target_only : Platform → Bool
  | .name _ => true
  | .cfg e => e.targetOnly

/-- `PACKAGE_PLATFORMS` / `lookup_platforms`: the static forced-platform
table. -/
def lookup_platforms (packageName : String) : Option (List Os) :=
  if packageName = "hyper-named-pipe" then some [.windows]
  else if packageName = "system-configuration" then some [.macos]
  else if packageName = "windows-future" then some [.windows]
  else if packageName = "windows" then some [.windows]
  else if packageName = "winreg" then some [.windows]
  else none

/-! ## Graph nodes and fingerprints (src/resolve.rs)

`BuckalNode::fingerprint` computes `blake3(bincode(self))`.  The embedding
models the bincode `standard()` encoding as a token stream (`Tok`):
lengths become `Tok.nat` tokens (bincode's varints are injective on
naturals), UTF-8 string bytes become `Tok.ch` tokens (UTF-8 is injective
on character sequences), and enum discriminants become `Tok.nat` tokens.
The 32-byte blake3 digest is modelled by the encoding itself, idealizing
the hash as collision-free; fingerprint equality then coincides with
encoding equality, which the decoder below proves is exactly record
equality. -/

/-- `NodeKind`. -/
inductive NodeKind : Type
  | firstParty (relative_path : String)
  | thirdParty
deriving DecidableEq, Repr

/-- `BuckalNode` (field order as declared, which fixes the bincode layout). -/
structure BuckalNode : Type where
  package_id : String
  name : String
  version : String
  features : List String
  kind : NodeKind
  edition : String
  dep_ids : List String
deriving DecidableEq, Repr

/-- One token of the modelled bincode stream. -/
inductive Tok : Type
  | nat (n : Nat)
  | ch (c : Char)
deriving DecidableEq, Repr

/-- Bincode encoding of a string: byte length, then the characters. -/
def encStr (s : String) : List Tok :=
  Tok.nat s.data.length :: s.data.map Tok.ch

/-- Bincode encoding of a `Vec<String>` (also used for `Vec<PackageId>`,
whose transparent serialization is its `repr` string): element count, then
the encoded elements in vector order. -/
def encStrList (xs : List String) : List Tok :=
  Tok.nat xs.length :: xs.foldr (fun s acc => encStr s ++ acc) []

/-- Bincode encoding of `NodeKind`: variant discriminant, then the
variant's fields. -/
def encKind : NodeKind → List Tok
  | .firstParty rp => Tok.nat 0 :: encStr rp
  | .thirdParty => [Tok.nat 1]

/-- Bincode encoding of a `BuckalNode`: the fields in declaration order. -/
def encNode (n : BuckalNode) : List Tok :=
  encStr n.package_id ++ encStr n.name ++ encStr n.version ++
    encStrList n.features ++ encKind n.kind ++ encStr n.edition ++
    encStrList n.dep_ids

/-- A `Fingerprint` (the blake3 digest, modelled injectively by the
encoded stream; see the section comment). -/
abbrev Fingerprint := List Tok

/-- `BuckalHash::fingerprint` for `BuckalNode`. -/
def BuckalNode.fingerprint (n : BuckalNode) : Fingerprint :=
  encNode n

/-! ### Decoding, proving the encoding injective -/

/-- Read `n` character tokens. -/
def decChars : Nat → List Tok → Option (List Char × List Tok)
  | 0, l => some ([], l)
  | n + 1, Tok.ch c :: l =>
      match decChars n l with
      | some (cs, rest) => some (c :: cs, rest)
      | none => none
  | _ + 1, _ => none

/-- Decode one string. -/
def decStr : List Tok → Option (String × List Tok)
  | Tok.nat n :: l =>
      match decChars n l with
      | some (cs, rest) => some (String.mk cs, rest)
      | none => none
  | _ => none

/-- Decode `n` strings. -/
def decStrs : Nat → List Tok → Option (List String × List Tok)
  | 0, l => some ([], l)
  | n + 1, l =>
      match decStr l with
      | some (s, l') =>
          match decStrs n l' with
          | some (ss, l'') => some (s :: ss, l'')
          | none => none
      | none => none

/-- Decode a string list. -/
def decStrList : List Tok → Option (List String × List Tok)
  | Tok.nat n :: l => decStrs n l
  | _ => none

/-- Decode a `NodeKind`. -/
def decKind : List Tok → Option (NodeKind × List Tok)
  | Tok.nat 0 :: l =>
      match decStr l with
      | some (rp, rest) => some (NodeKind.firstParty rp, rest)
      | none => none
  | Tok.nat 1 :: l => some (NodeKind.thirdParty, l)
  | _ => none

/-- Decode a `BuckalNode`. -/
def decNode (l : List Tok) : Option (BuckalNode × List Tok) :=
  match decStr l with
  | none => none
  | some (pid, l₁) =>
    match decStr l₁ with
    | none => none
    | some (nm, l₂) =>
      match decStr l₂ with
      | none => none
      | some (ver, l₃) =>
        match decStrList l₃ with
        | none => none
        | some (fs, l₄) =>
          match decKind l₄ with
          | none => none
          | some (kd, l₅) =>
            match decStr l₅ with
            | none => none
            | some (ed, l₆) =>
              match decStrList l₆ with
              | none => none
              | some (ds, l₇) =>
                some (⟨pid, nm, ver, fs, kd, ed, ds⟩, l₇)

/-! ## Cargo metadata model (the `cargo_metadata` input schema)

The structures below model the subset of the external `cargo_metadata`
schema the core consumes: resolved nodes with per-edge dependency kinds
and optional platform predicates, and packages with their targets. -/

/-- `cargo_metadata::DependencyKind`. -/
inductive DependencyKind : Type
  | normal
  | development
  | build
deriving DecidableEq, Repr

/-- One entry of `NodeDep::dep_kinds`. -/
structure DepKindInfo : Type where
  kind : DependencyKind
  target : Option Platform

/-- `cargo_metadata::NodeDep`: one resolved dependency edge. -/
structure NodeDep : Type where
  name : String
  pkg : String
  dep_kinds : List DepKindInfo

/-- `cargo_metadata::Node`: one resolved package with its activated
features and outgoing edges. -/
structure Node : Type where
  id : String
  features : List String
  deps : List NodeDep

/-- `cargo_metadata::TargetKind` (the variants the core inspects). -/
inductive TargetKind : Type
  | lib
  | bin
  | cdylib
  | dylib
  | rlib
  | staticlib
  | procMacro
  | customBuild
  | test
deriving DecidableEq, Repr

/-- `cargo_metadata::Target`. -/
structure Target : Type where
  kind : List TargetKind
  name : String
  src_path : String
  test : Bool
deriving DecidableEq, Repr

/-- `cargo_metadata::Package` (the fields the core consumes).
`source = none` marks a first-party (workspace) package. -/
structure Package : Type where
  id : String
  name : String
  version : String
  manifest_path : String
  targets : List Target
  source : Option String
  edition : String
  links : Option String
deriving DecidableEq, Repr

/-- `config::RepoConfig` (the fields the core consumes). -/
structure RepoConfig : Type where
  inherit_workspace_deps : Bool
  ignore_tests : Bool
  patch_fields : List String

/-- `context::BuckalContext`.  The last two fields model environment
queries performed through `utils.rs` and `platform.rs`: `buck2_root` is
the result of `get_buck2_root()`, and `cfg_db` the per-process rustc cfg
cache consulted by `oses_from_platform`. -/
structure BuckalContext : Type where
  root : Package
  nodes_map : List (String × Node)
  packages_map : List (String × Package)
  checksums_map : List (String × String)
  workspace_root : String
  no_merge : Bool
  separate : Bool
  repo_config : RepoConfig
  buck2_root : String
  cfg_db : String → Option (List Cfg)
  /-- `get_target()` (utils.rs): the host target triple. -/
  host_target : String
  /-- `get_cfgs()` (utils.rs): the host's rustc cfg flags. -/
  host_cfgs : List Cfg

/-! ## Change detection (`src/cache.rs`, modelled from the spec)

`cache.rs` is part of the repository (declared in `main.rs`, used by
`resolve.rs`, `buckify/actions.rs` and the command modules) but its source
is not among the provided files, so the snapshot type and `diff` are
modelled from the spec: "for each node in `current`, if absent from
`previous` → Added; if present with a different fingerprint → Changed; if
present with the same fingerprint → omitted.  For each identifier in
`previous` absent from `current` → Removed." -/

/-- `cache::ChangeType`. -/
inductive ChangeType : Type
  | added
  | changed
  | removed
deriving DecidableEq, Repr

/-- Modelled from the spec: `cache::BuckalCache`, "a persisted mapping from
node identifier to fingerprint plus enough identity metadata to re-derive a
human-readable name/version on removal" (the identity metadata lives in the
identifier itself, which `apply` re-parses). -/
structure BuckalCache : Type where
  fingerprints : List (String × Fingerprint)
deriving DecidableEq, Repr

/-- `cache::BuckalChange`: the change set `apply` iterates over. -/
structure BuckalChange : Type where
  changes : List (String × ChangeType)
deriving DecidableEq, Repr

/-- Modelled from the spec: `BuckalCache::diff` (see the section comment;
`current` is the receiver, `previous` the loaded snapshot). -/
def BuckalCache.diff (current previous : BuckalCache) : BuckalChange :=
  ⟨(current.fingerprints.filterMap (fun idfp =>
      match mapLookup previous.fingerprints idfp.1 with
      | none => some (idfp.1, ChangeType.added)
      | some fp' =>
          if fp' ≠ idfp.2 then some (idfp.1, ChangeType.changed) else none)) ++
    (previous.fingerprints.filterMap (fun idfp =>
      if mapContains current.fingerprints idfp.1 then none
      else some (idfp.1, ChangeType.removed)))⟩

/-! ## Applying a change set (src/buckify/actions.rs)

`BuckalChange::apply` walks the change entries and performs I/O per entry
(vendoring, BUCK generation, directory removal).  The embedding captures
the per-entry *decision* as a step descriptor; the I/O bodies themselves
are the externally-visible actions the descriptor names. -/

/-- What `apply` decides to do for one change entry. -/
inductive ApplyStep : Type
  | skip
  /-- Vendor, buckify (root-node or dep-node emission according to
  `firstParty`), merge and write the BUCK file. -/
  | regen (firstParty : Bool)
  /-- Remove the vendor directory derived from the parsed name/version. -/
  | removeDir (name version : String)
deriving DecidableEq, Repr

/-- The package-id regex
`^([^+#]+)\+([^#]+)#([^@]+)@([^+#]+)(?:\+(.+))?$` of `apply`, returning
capture groups 3 and 4 (name, version).  `none` models a failed match
(which `apply` turns into a panic via `expect`). -/
def parsePackageId (repr : String) : Option (String × String) :=
  match strSplitOn repr '#' with
  | [front, back] =>
      match strSplitOn front '+' with
      | [_] => none
      | g1 :: rest =>
          if g1 = "" ∨ rest = [""] then none
          else
            match strSplitOn back '@' with
            | name :: tp :: tps =>
                if name = "" then none
                else
                  match strSplitOn (joinSep "@" (tp :: tps)) '+' with
                  | [version] =>
                      if version = "" then none else some (name, version)
                  | version :: extra :: more =>
                      if version = "" ∨ extra :: more = [""] then none
                      else some (name, version)
                  | [] => none
            | _ => none
      | [] => none
  | _ => none

/-- The per-entry decision logic of `BuckalChange::apply`.  `none` models a
panic (`unwrap` on a missing package, or an unparsable removed id). -/
def applyStep (ctx : BuckalContext) (entry : String × ChangeType) :
    Option ApplyStep :=
  match entry.2 with
  | .added | .changed =>
      -- Skip root package
      if entry.1 = ctx.root.id then some .skip
      else
        match mapLookup ctx.nodes_map entry.1 with
        | none => some .skip
        | some _ =>
            match mapLookup ctx.packages_map entry.1 with
            | none => none
            | some package =>
                -- Skip first-party packages if `--separate` is set
                if ctx.separate ∧ package.source = none then some .skip
                else some (.regen (package.source = none))
  | .removed =>
      -- Skip workspace_root package
      if strIsPfx ("path+file://" ++ ctx.workspace_root) entry.1 then
        some .skip
      else
        match parsePackageId entry.1 with
        | none => none
        | some nv => some (.removeDir nv.1 nv.2)

/-! ## Dependency attachment (src/buckify/deps.rs)

The final revision of the dependency engine lives in `src/buckify/deps.rs`
(the monolithic `src/buckify.rs` is a superseded revision of the same
module: it references a `ctx.supported_platform_only` field that no longer
exists in `context.rs` and contains a leftover syntax artifact, so it is
not the compiled program).  `insert_dep` and `set_deps` below follow
`deps.rs`. -/

/-- `RUST_CRATES_ROOT` (src/main.rs). -/
def RUST_CRATES_ROOT : String := "third-party/rust/crates"

/-- `buck::CargoTargetKind`. -/
inductive CargoTargetKind : Type
  | lib
  | bin
  | customBuild
  | test
deriving DecidableEq, Repr

/-- `dep_kind_matches` (deps.rs): which dependency kinds feed a rule kind. -/
def dep_kind_matches (target_kind : CargoTargetKind)
    (dep_kind : DependencyKind) : Bool :=
  match target_kind with
  | .customBuild => dep_kind = .build
  | .test => dep_kind = .development || dep_kind = .normal
  | _ => dep_kind = .normal

/-- The `RustRule` trait surface: the dependency-attachment fields shared
by `RustLibrary`, `RustBinary` and `RustTest` (`deps_mut`, `os_deps_mut`,
`rustc_flags_mut`, `env_mut`, `named_deps_mut`, `os_named_deps_mut`). -/
structure DepCap : Type where
  deps : List String
  os_deps : List (String × List String)
  rustc_flags : List String
  env : List (String × String)
  named_deps : List (String × String)
  os_named_deps : List (String × List (String × String))
deriving DecidableEq, Repr

/-- One pass of `insert_dep`'s platform loop body for a single OS
(`bail!` aborts the whole call). -/
def insertDepOs (target : String) (aliasN : Option String) (rule : DepCap)
    (os : Os) : Except String DepCap :=
  let os_key := os.key
  match aliasN with
  | some aliasN =>
      let entries := mapGetOrDefault rule.os_named_deps aliasN []
      match mapLookup entries os_key with
      | some existing =>
          if existing ≠ target then
            .error ("os_named_deps alias '" ++ aliasN ++
              "' had conflicting targets for platform '" ++ os_key ++
              "': '" ++ existing ++ "' vs '" ++ target ++ "'")
          else .ok rule
      | none =>
          .ok { rule with
            os_named_deps := mapInsert rule.os_named_deps aliasN
              (mapInsert entries os_key target) }
  | none =>
      .ok { rule with
        os_deps := mapInsert rule.os_deps os_key
          (btsInsert (mapGetOrDefault rule.os_deps os_key []) target) }

/-- `insert_dep`: attach one resolved label to the appropriate dependency
attribute.  Returns the updated rule together with the diagnostics the
call printed via `buckal_warn!`. -/
def insert_dep (rule : DepCap) (target : String) (aliasN : Option String)
    (platforms : Option (List Os)) : Except String (DepCap × List String) :=
  match platforms with
  | some platforms => do
      let r ← platforms.foldlM (insertDepOs target aliasN) rule
      pure (r, [])
  | none =>
      match aliasN with
      | some aliasN =>
          match mapLookup rule.named_deps aliasN with
          | none =>
              .ok ({ rule with
                named_deps := mapInsert rule.named_deps aliasN target }, [])
          | some existing =>
              if existing ≠ target then
                .ok (rule,
                  ["named_deps alias '" ++ aliasN ++
                    "' had conflicting targets: '" ++ existing ++ "' vs '" ++
                    target ++ "'"])
              else .ok (rule, [])
      | none => .ok ({ rule with deps := btsInsert rule.deps target }, [])

/-- `get_lib_targets`. -/
def get_lib_targets (package : Package) : List Target :=
  package.targets.filter (fun t =>
    t.kind.contains TargetKind.lib || t.kind.contains TargetKind.cdylib ||
    t.kind.contains TargetKind.dylib || t.kind.contains TargetKind.rlib ||
    t.kind.contains TargetKind.staticlib ||
    t.kind.contains TargetKind.procMacro)

/-- `Path::parent` on the plain-string path form: drop the last
`/`-separated component. -/
def pathParent (p : String) : Option String :=
  if p = "" then none
  else
    match (strSplitOn p '/').dropLast with
    | [] => some ""
    | parts => some (joinSep "/" parts)

/-- `Path::strip_prefix` on the plain-string path form (component-wise:
removes the separator after the stripped part). -/
def pathStrip (p pre : String) : Option String :=
  if p = pre then some ""
  else if strIsPfx (pre ++ "/") p then some (strDrop p (pre.length + 1))
  else none

/-- `resolve_first_party_label` (deps.rs): locate the dependent's manifest
directory relative to the buck2 root and pick the (possibly
`lib`-disambiguated) library target name. -/
def resolve_first_party_label (buck2_root : String) (dep_package : Package) :
    Except String String :=
  match pathParent dep_package.manifest_path with
  | none => .error "manifest_path should always have a parent directory"
  | some manifest_dir =>
      match pathStrip manifest_dir buck2_root with
      | none =>
          .error ("dependency manifest dir `" ++ manifest_dir ++
            "` is not under Buck2 root `" ++ buck2_root ++ "`")
      | some relative_path =>
          let dep_bin_targets := dep_package.targets.filter
            (fun t => t.kind.contains TargetKind.bin)
          match get_lib_targets dep_package with
          | [libT] =>
              let buckal_name :=
                if dep_bin_targets.any (fun b => b.name = libT.name) then
                  "lib" ++ libT.name
                else libT.name
              .ok ("//" ++ relative_path ++ ":" ++ buckal_name)
          | libs =>
              .error ("Expected exactly one library target for dependency " ++
                dep_package.name ++ ", but found " ++ toString libs.length)

/-- `resolve_dep_label` (deps.rs): resolved Buck label plus the alias for a
renamed dependency. -/
def resolve_dep_label (dep : NodeDep) (dep_package : Package)
    (use_workspace_alias : Bool) (buck2_root : String) :
    Except String (String × Option String) :=
  let dep_package_name := dep_package.name
  let is_renamed := dep.name ≠ replaceChar '-' '_' dep_package_name
  let aliasN := if is_renamed then some dep.name else none
  match dep_package.source with
  | none => do
      let label ← resolve_first_party_label buck2_root dep_package
      pure (label, aliasN)
  | some _ =>
      .ok
        (if use_workspace_alias then
          "//third-party/rust:" ++ dep_package.name
        else
          "//" ++ RUST_CRATES_ROOT ++ "/" ++ dep_package.name ++ "/" ++
            dep_package.version ++ ":" ++ dep_package.name,
        aliasN)

/-- State of `set_deps`' inner scan over one edge's `dep_kinds`. -/
structure DepScan : Type where
  unconditional : Bool
  platforms : List Os
  has_unsupported_platform : Bool
deriving Repr

/-- One iteration of the `dep_kinds` scan in `set_deps` (deps.rs). -/
def scanStep (cfgDb : String → Option (List Cfg)) (s : DepScan)
    (dk : DepKindInfo) : DepScan :=
  match dk.target with
  | none => { s with unconditional := true }
  | some platform =>
      let oses := oses_from_platform cfgDb platform
      if oses.isEmpty then
        if platform_is_target_only platform then
          { s with has_unsupported_platform := true }
        else { s with unconditional := true }
      else { s with platforms := osExtend s.platforms oses }

/-- The `dep_kinds` scan of `set_deps`: filter the entries matching the
rule kind and fold the classification state. -/
def scan_dep_kinds (cfgDb : String → Option (List Cfg))
    (kind : CargoTargetKind) (dep : NodeDep) : DepScan :=
  (dep.dep_kinds.filter (fun dk => dep_kind_matches kind dk.kind)).foldl
    (scanStep cfgDb) ⟨false, [], false⟩

/-- Intermediate state of `set_deps`: the rule plus the diagnostics
printed so far (`buckal_warn!` and `buckal_note!` respectively). -/
structure SetDepsState : Type where
  rule : DepCap
  warnings : List String
  notes : List String
deriving DecidableEq, Repr

/-- The note text of `set_deps`' omission diagnostic. -/
def unsupportedNote (depName pkgName : String) : String :=
  "Dependency '" ++ depName ++ "' (package '" ++ pkgName ++
    "') targets only unsupported platforms and will be omitted."

/-- The loop body of `set_deps` (deps.rs) for one dependency edge. -/
def process_dep (packages_map : List (String × Package))
    (use_workspace_alias : Bool) (kind : CargoTargetKind)
    (ctx : BuckalContext) (st : SetDepsState) (dep : NodeDep) :
    Except String SetDepsState :=
  match mapLookup packages_map dep.pkg with
  | none => .ok st
  | some dep_package =>
      let scan := scan_dep_kinds ctx.cfg_db kind dep
      if !scan.unconditional && scan.platforms.isEmpty then
        if scan.has_unsupported_platform then
          .ok { st with
            notes := st.notes ++ [unsupportedNote dep.name dep_package.name] }
        else .ok st
      else
        match resolve_dep_label dep dep_package use_workspace_alias
            ctx.buck2_root with
        | .error e =>
            .error ("failed to resolve dependency label for '" ++ dep.name ++
              "' (package '" ++ dep_package.name ++ "'): " ++ e)
        | .ok (target_label, aliasN) => do
            let rw ←
              if scan.unconditional then
                insert_dep st.rule target_label aliasN none
              else
                insert_dep st.rule target_label aliasN (some scan.platforms)
            pure { st with rule := rw.1, warnings := st.warnings ++ rw.2 }

/-- `set_deps` (deps.rs): attach every applicable dependency edge of
`node` to the rule. -/
def set_deps (rule : DepCap) (node : Node)
    (packages_map : List (String × Package)) (kind : CargoTargetKind)
    (ctx : BuckalContext) : Except String SetDepsState :=
  let use_workspace_alias :=
    ctx.repo_config.inherit_workspace_deps && node.id = ctx.root.id
  node.deps.foldlM (process_dep packages_map use_workspace_alias kind ctx)
    ⟨rule, [], []⟩

/-! ## The rule model (src/buck.rs) -/

/-- `buck::Load`. -/
structure Load : Type where
  bzl : String
  items : List String
deriving DecidableEq, Repr

/-- `buck::HttpArchive`.  `typ` is the source field `_type` (serialized as
`type`); `stripPfx` is the source field for the archive prefix to strip. -/
structure HttpArchive : Type where
  name : String
  urls : List String
  sha256 : String
  typ : String
  stripPfx : String
  out : Option String
deriving DecidableEq, Repr

/-- `buck::CargoManifest`. -/
structure CargoManifest : Type where
  name : String
  vendor : String
deriving DecidableEq, Repr

/-- `buck::Glob`. -/
structure Glob : Type where
  include_ : List String
  exclude : List String
deriving DecidableEq, Repr

/-- `buck::FileGroup`. -/
structure FileGroup : Type where
  name : String
  srcs : Glob
  out : Option String
deriving DecidableEq, Repr

/-- `buck::RustLibrary` (fields in declaration order). -/
structure RustLibrary : Type where
  name : String
  srcs : List String
  crate_name : String
  crate_root : String
  edition : String
  target_compatible_with : List String
  compatible_with : List String
  exec_compatible_with : List String
  env : List (String × String)
  features : List String
  rustc_flags : List String
  proc_macro : Option Bool
  named_deps : List (String × String)
  os_named_deps : List (String × List (String × String))
  os_deps : List (String × List String)
  visibility : List String
  deps : List String
deriving DecidableEq, Repr

/-- `buck::RustBinary`. -/
structure RustBinary : Type where
  name : String
  srcs : List String
  crate_name : String
  crate_root : String
  edition : String
  target_compatible_with : List String
  compatible_with : List String
  exec_compatible_with : List String
  env : List (String × String)
  features : List String
  rustc_flags : List String
  named_deps : List (String × String)
  os_named_deps : List (String × List (String × String))
  os_deps : List (String × List String)
  visibility : List String
  deps : List String
deriving DecidableEq, Repr

/-- `buck::RustTest`. -/
structure RustTest : Type where
  name : String
  srcs : List String
  crate_name : String
  crate_root : String
  edition : String
  target_compatible_with : List String
  compatible_with : List String
  exec_compatible_with : List String
  env : List (String × String)
  features : List String
  rustc_flags : List String
  named_deps : List (String × String)
  os_named_deps : List (String × List (String × String))
  os_deps : List (String × List String)
  visibility : List String
  deps : List String
deriving DecidableEq, Repr

/-- `buck::BuildscriptRun`. -/
structure BuildscriptRun : Type where
  name : String
  package_name : String
  buildscript_rule : String
  env : List (String × String)
  env_srcs : List String
  features : List String
  version : String
  manifest_dir : String
  visibility : List String
deriving DecidableEq, Repr

/-- `buck::Rule`: the tagged union of rule kinds. -/
inductive Rule : Type
  | load (l : Load)
  | httpArchive (r : HttpArchive)
  | fileGroup (r : FileGroup)
  | cargoManifest (r : CargoManifest)
  | rustLibrary (r : RustLibrary)
  | rustBinary (r : RustBinary)
  | rustTest (r : RustTest)
  | buildscriptRun (r : BuildscriptRun)
deriving DecidableEq, Repr

/-- The `RustRule` view of a `RustLibrary`. -/
def RustLibrary.cap (r : RustLibrary) : DepCap :=
  ⟨r.deps, r.os_deps, r.rustc_flags, r.env, r.named_deps, r.os_named_deps⟩

/-- Write a `RustRule` view back into a `RustLibrary`. -/
def RustLibrary.withCap (r : RustLibrary) (c : DepCap) : RustLibrary :=
  { r with
    deps := c.deps
    os_deps := c.os_deps
    rustc_flags := c.rustc_flags
    env := c.env
    named_deps := c.named_deps
    os_named_deps := c.os_named_deps }

/-- The `RustRule` view of a `RustBinary`. -/
def RustBinary.cap (r : RustBinary) : DepCap :=
  ⟨r.deps, r.os_deps, r.rustc_flags, r.env, r.named_deps, r.os_named_deps⟩

/-- Write a `RustRule` view back into a `RustBinary`. -/
def RustBinary.withCap (r : RustBinary) (c : DepCap) : RustBinary :=
  { r with
    deps := c.deps
    os_deps := c.os_deps
    rustc_flags := c.rustc_flags
    env := c.env
    named_deps := c.named_deps
    os_named_deps := c.os_named_deps }

/-- The `RustRule` view of a `RustTest`. -/
def RustTest.cap (r : RustTest) : DepCap :=
  ⟨r.deps, r.os_deps, r.rustc_flags, r.env, r.named_deps, r.os_named_deps⟩

/-- Write a `RustRule` view back into a `RustTest`. -/
def RustTest.withCap (r : RustTest) (c : DepCap) : RustTest :=
  { r with
    deps := c.deps
    os_deps := c.os_deps
    rustc_flags := c.rustc_flags
    env := c.env
    named_deps := c.named_deps
    os_named_deps := c.os_named_deps }

/-- `Rule::as_rust_rule_mut` followed by a mutation: only `RustLibrary` and
`RustBinary` expose the `RustRule` surface; other variants are returned
unchanged. -/
def Rule.patchRustRule (f : DepCap → DepCap) : Rule → Rule
  | .rustLibrary r => .rustLibrary (r.withCap (f r.cap))
  | .rustBinary r => .rustBinary (r.withCap (f r.cap))
  | r => r

/-! ### Manual-edit merge (src/buck.rs: `patch_*`) -/

/-- `patch_set`: union the manually added members of `src` into `dst`. -/
def patch_set (dst src : List String) : List String :=
  (src.filter (fun x => x ∉ dst)).foldl btsInsert dst

/-- `patch_map`: insert the entries of `src` whose key is absent from
`dst` (generated values win on key conflicts). -/
def patch_map {V : Type} (dst src : List (String × V)) :
    List (String × V) :=
  src.foldl (fun d kv => mapInsertIfAbsent d kv.1 kv.2) dst

/-- The four dependency attributes shared by the patchable rule kinds
(`DepFieldsMut` / `DepFieldsRef` in the source). -/
structure DepFields : Type where
  deps : List String
  os_deps : List (String × List String)
  named_deps : List (String × String)
  os_named_deps : List (String × List (String × String))
deriving DecidableEq, Repr

/-- `patch_deps_fields`. -/
def patch_deps_fields (patch_fields : List String) (dst src : DepFields) :
    DepFields :=
  let dst := if patch_fields.contains "deps" then
      { dst with deps := patch_set dst.deps src.deps } else dst
  let dst := if patch_fields.contains "os_deps" then
      let od := src.os_deps.foldl
        (fun m pd =>
          mapInsert m pd.1 (patch_set (mapGetOrDefault m pd.1 []) pd.2))
        dst.os_deps
      { dst with os_deps := od }
    else dst
  let dst := if patch_fields.contains "named_deps" then
      { dst with named_deps := patch_map dst.named_deps src.named_deps }
    else dst
  let dst := if patch_fields.contains "os_named_deps" then
      let ond := src.os_named_deps.foldl
        (fun m ap =>
          mapInsert m ap.1 (patch_map (mapGetOrDefault m ap.1 []) ap.2))
        dst.os_named_deps
      { dst with os_named_deps := ond }
    else dst
  dst

/-- `RustLibrary::patch_from`. -/
def RustLibrary.patch_from (self other : RustLibrary)
    (patch_fields : List String) : RustLibrary :=
  let s := if patch_fields.contains "target_compatible_with" then
      { self with target_compatible_with :=
          patch_set self.target_compatible_with other.target_compatible_with }
    else self
  let s := if patch_fields.contains "compatible_with" then
      { s with compatible_with :=
          patch_set s.compatible_with other.compatible_with }
    else s
  let s := if patch_fields.contains "exec_compatible_with" then
      { s with exec_compatible_with :=
          patch_set s.exec_compatible_with other.exec_compatible_with }
    else s
  let s := if patch_fields.contains "env" then
      { s with env := patch_map s.env other.env } else s
  let s := if patch_fields.contains "features" then
      { s with features := patch_set s.features other.features } else s
  let s := if patch_fields.contains "rustc_flags" then
      { s with rustc_flags := patch_set s.rustc_flags other.rustc_flags }
    else s
  let s := if patch_fields.contains "visibility" then
      { s with visibility := patch_set s.visibility other.visibility } else s
  let d := patch_deps_fields patch_fields
    ⟨s.deps, s.os_deps, s.named_deps, s.os_named_deps⟩
    ⟨other.deps, other.os_deps, other.named_deps, other.os_named_deps⟩
  { s with
    deps := d.deps
    os_deps := d.os_deps
    named_deps := d.named_deps
    os_named_deps := d.os_named_deps }

/-- `RustBinary::patch_from`. -/
def RustBinary.patch_from (self other : RustBinary)
    (patch_fields : List String) : RustBinary :=
  let s := if patch_fields.contains "target_compatible_with" then
      { self with target_compatible_with :=
          patch_set self.target_compatible_with other.target_compatible_with }
    else self
  let s := if patch_fields.contains "compatible_with" then
      { s with compatible_with :=
          patch_set s.compatible_with other.compatible_with }
    else s
  let s := if patch_fields.contains "exec_compatible_with" then
      { s with exec_compatible_with :=
          patch_set s.exec_compatible_with other.exec_compatible_with }
    else s
  let s := if patch_fields.contains "env" then
      { s with env := patch_map s.env other.env } else s
  let s := if patch_fields.contains "features" then
      { s with features := patch_set s.features other.features } else s
  let s := if patch_fields.contains "rustc_flags" then
      { s with rustc_flags := patch_set s.rustc_flags other.rustc_flags }
    else s
  let s := if patch_fields.contains "visibility" then
      { s with visibility := patch_set s.visibility other.visibility } else s
  let d := patch_deps_fields patch_fields
    ⟨s.deps, s.os_deps, s.named_deps, s.os_named_deps⟩
    ⟨other.deps, other.os_deps, other.named_deps, other.os_named_deps⟩
  { s with
    deps := d.deps
    os_deps := d.os_deps
    named_deps := d.named_deps
    os_named_deps := d.os_named_deps }

/-- `RustTest::patch_from`. -/
def RustTest.patch_from (self other : RustTest)
    (patch_fields : List String) : RustTest :=
  let s := if patch_fields.contains "target_compatible_with" then
      { self with target_compatible_with :=
          patch_set self.target_compatible_with other.target_compatible_with }
    else self
  let s := if patch_fields.contains "compatible_with" then
      { s with compatible_with :=
          patch_set s.compatible_with other.compatible_with }
    else s
  let s := if patch_fields.contains "exec_compatible_with" then
      { s with exec_compatible_with :=
          patch_set s.exec_compatible_with other.exec_compatible_with }
    else s
  let s := if patch_fields.contains "env" then
      { s with env := patch_map s.env other.env } else s
  let s := if patch_fields.contains "features" then
      { s with features := patch_set s.features other.features } else s
  let s := if patch_fields.contains "rustc_flags" then
      { s with rustc_flags := patch_set s.rustc_flags other.rustc_flags }
    else s
  let s := if patch_fields.contains "visibility" then
      { s with visibility := patch_set s.visibility other.visibility } else s
  let d := patch_deps_fields patch_fields
    ⟨s.deps, s.os_deps, s.named_deps, s.os_named_deps⟩
    ⟨other.deps, other.os_deps, other.named_deps, other.os_named_deps⟩
  { s with
    deps := d.deps
    os_deps := d.os_deps
    named_deps := d.named_deps
    os_named_deps := d.os_named_deps }

/-- `BuildscriptRun::patch_from`. -/
def BuildscriptRun.patch_from (self other : BuildscriptRun)
    (patch_fields : List String) : BuildscriptRun :=
  let s := if patch_fields.contains "env" then
      { self with env := patch_map self.env other.env } else self
  let s := if patch_fields.contains "features" then
      { s with features := patch_set s.features other.features } else s
  let s := if patch_fields.contains "visibility" then
      { s with visibility := patch_set s.visibility other.visibility } else s
  s

/-- The Starlark call name of each rule kind (the `#[serde(rename = ..)]`
names, which are also the function names `parse_buck_file` keys on). -/
def ruleKindName : Rule → String
  | .load _ => "load"
  | .httpArchive _ => "http_archive"
  | .fileGroup _ => "filegroup"
  | .cargoManifest _ => "cargo_manifest"
  | .rustLibrary _ => "rust_library"
  | .rustBinary _ => "rust_binary"
  | .rustTest _ => "rust_test"
  | .buildscriptRun _ => "buildscript_run"

/-- `parse_buck_file` applied to freshly rendered output, at the record
level: the Python harness captures every rule call in file order (`load`
statements are stubbed out and not captured), each call's keyword
arguments reconstruct exactly the record that was serialized
(`from_py_dict` is the inverse of the serde serialization, with absent
optional/empty fields defaulting), and the result map is keyed by the
call's function name with later calls overwriting earlier ones. -/
def parse_rendered (rules : List Rule) : List (String × Rule) :=
  (rules.filter (fun r => ruleKindName r ≠ "load")).foldl
    (fun m r => mapInsert m (ruleKindName r) r) []

/-- The per-rule body of `patch_buck_rules`'s loop. -/
def patchRule (existing : List (String × Rule)) (patch_fields : List String) :
    Rule → Rule
  | .rustLibrary new_rule =>
      match mapLookup existing "rust_library" with
      | some (.rustLibrary existing_rule) =>
          .rustLibrary (new_rule.patch_from existing_rule patch_fields)
      | _ => .rustLibrary new_rule
  | .rustBinary new_rule =>
      match mapLookup existing "rust_binary" with
      | some (.rustBinary existing_rule) =>
          .rustBinary (new_rule.patch_from existing_rule patch_fields)
      | _ => .rustBinary new_rule
  | .rustTest new_rule =>
      match mapLookup existing "rust_test" with
      | some (.rustTest existing_rule) =>
          .rustTest (new_rule.patch_from existing_rule patch_fields)
      | _ => .rustTest new_rule
  | .buildscriptRun new_rule =>
      match mapLookup existing "buildscript_run" with
      | some (.buildscriptRun existing_rule) =>
          .buildscriptRun (new_rule.patch_from existing_rule patch_fields)
      | _ => .buildscriptRun new_rule
  | r => r

/-- `patch_buck_rules`: merge the parsed existing rules into each freshly
generated rule of the same kind. -/
def patch_buck_rules (existing : List (String × Rule)) (to_patch : List Rule)
    (patch_fields : List String) : List Rule :=
  to_patch.map (patchRule existing patch_fields)

/-! ## Rendering (src/buckify/rules.rs: `gen_buck_content`) -/

/-- The presence flags `gen_buck_content` computes over the rule set. -/
structure LoadFlags : Type where
  has_cargo_manifest : Bool
  has_rust_library : Bool
  has_rust_binary : Bool
  has_rust_test : Bool
  has_buildscript_run : Bool
deriving DecidableEq, Repr

/-- One iteration of `gen_buck_content`'s presence scan. -/
def loadFlagsStep (f : LoadFlags) : Rule → LoadFlags
  | .cargoManifest _ => { f with has_cargo_manifest := true }
  | .rustLibrary _ => { f with has_rust_library := true }
  | .rustBinary _ => { f with has_rust_binary := true }
  | .rustTest _ => { f with has_rust_test := true }
  | .buildscriptRun _ => { f with has_buildscript_run := true }
  | _ => f

/-- The presence scan of `gen_buck_content` over the rule set. -/
def loadFlags (rules : List Rule) : LoadFlags :=
  rules.foldl loadFlagsStep ⟨false, false, false, false, false⟩

/-- The wrapper-load item set of `gen_buck_content`: the present rust rule
kinds, collected into a `BTreeSet<String>` (hence sorted). -/
def wrapperItems (rules : List Rule) : List String :=
  let flags := loadFlags rules
  let wi : List String := []
  let wi := if flags.has_rust_library then btsInsert wi "rust_library" else wi
  let wi := if flags.has_rust_binary then btsInsert wi "rust_binary" else wi
  let wi := if flags.has_rust_test then btsInsert wi "rust_test" else wi
  let wi := if flags.has_buildscript_run then btsInsert wi "buildscript_run"
    else wi
  wi

/-- The load statements `gen_buck_content` emits for a rule set: the
manifest load when a manifest rule is present, then the wrapper load with
exactly the present rust rule kinds. -/
def genLoads (rules : List Rule) : List Load :=
  let flags := loadFlags rules
  let loads := if flags.has_cargo_manifest then
      [Load.mk "@buckal//:cargo_manifest.bzl" ["cargo_manifest"]] else []
  loads ++ (if (wrapperItems rules).isEmpty then []
    else [Load.mk "@buckal//:wrapper.bzl" (wrapperItems rules)])

/-- The generation banner. -/
def buckBanner : String := "# @generated by `cargo buckal`\n\n"

/-- `gen_buck_content`.  `ser` abstracts the external
`serde_starlark::to_string` serializer (a pure function of the rule
record); the load statements and the body are serialized with it and
assembled exactly as the source's `insert_str` calls do. -/
def gen_buck_content (ser : Rule → String) (rules : List Rule) : String :=
  let loads_string := String.join ((genLoads rules).map (fun l => ser (.load l)))
  let content := joinSep "\n" (rules.map ser)
  buckBanner ++ loads_string ++ "\n" ++ content

/-! ## Rule emission (src/buckify/emit.rs) -/

/-- `normalize_path_for_buck`. -/
def normalize_path_for_buck (path : String) : String :=
  replaceChar '\\' '/' path

/-- `get_vendor_target`. -/
def get_vendor_target (package : Package) : String :=
  ":" ++ package.name ++ "-vendor"

/-- `get_build_name`: strip a trailing `-build` from the build target name. -/
def get_build_name (s : String) : String :=
  if strEndsWith s "-build" then strDropRight s 6 else s

/-- The rustc-flags entry pointing at the manifest rule's env flags. -/
def manifestFlag (packageName : String) : String :=
  "@$(location :" ++ packageName ++ "-manifest[env_flags])"

/-- `emit_rust_library`.  `none` models a panic (`expect` on the crate-root
strip) or the `unwrap_or_exit` on a `set_deps` failure. -/
def emit_rust_library (package : Package) (node : Node)
    (packages_map : List (String × Package)) (lib_target : Target)
    (manifest_dir : String) (buckal_name : String) (ctx : BuckalContext) :
    Option RustLibrary :=
  let rust_library : RustLibrary :=
    { name := buckal_name
      srcs := [get_vendor_target package]
      crate_name := replaceChar '-' '_' lib_target.name
      crate_root := ""
      edition := package.edition
      target_compatible_with := []
      compatible_with := []
      exec_compatible_with := []
      env := []
      features := btsOfList node.features
      rustc_flags := [manifestFlag package.name]
      proc_macro := none
      named_deps := []
      os_named_deps := []
      os_deps := []
      visibility := ["PUBLIC"]
      deps := [] }
  let rust_library := if lib_target.kind.contains TargetKind.procMacro then
      { rust_library with proc_macro := some true } else rust_library
  match pathStrip lib_target.src_path manifest_dir with
  | none => none
  | some rel =>
      let rust_library := { rust_library with
        crate_root := "vendor/" ++ normalize_path_for_buck rel }
      let rust_library := match lookup_platforms package.name with
        | some platforms =>
            { rust_library with compatible_with := buck_labels platforms }
        | none => rust_library
      match set_deps rust_library.cap node packages_map CargoTargetKind.lib
          ctx with
      | .error _ => none
      | .ok st => some (rust_library.withCap st.rule)

/-- `emit_rust_binary`. -/
def emit_rust_binary (package : Package) (node : Node)
    (packages_map : List (String × Package)) (bin_target : Target)
    (manifest_dir : String) (buckal_name : String) (ctx : BuckalContext) :
    Option RustBinary :=
  let rust_binary : RustBinary :=
    { name := buckal_name
      srcs := [get_vendor_target package]
      crate_name := replaceChar '-' '_' bin_target.name
      crate_root := ""
      edition := package.edition
      target_compatible_with := []
      compatible_with := []
      exec_compatible_with := []
      env := []
      features := btsOfList node.features
      rustc_flags := [manifestFlag package.name]
      named_deps := []
      os_named_deps := []
      os_deps := []
      visibility := ["PUBLIC"]
      deps := [] }
  match pathStrip bin_target.src_path manifest_dir with
  | none => none
  | some rel =>
      let rust_binary := { rust_binary with
        crate_root := "vendor/" ++ normalize_path_for_buck rel }
      match set_deps rust_binary.cap node packages_map CargoTargetKind.bin
          ctx with
      | .error _ => none
      | .ok st =>
          let rust_binary := rust_binary.withCap st.rule
          let rust_binary := match lookup_platforms package.name with
            | some platforms =>
                { rust_binary with compatible_with := buck_labels platforms }
            | none => rust_binary
          some rust_binary

/-- `emit_rust_test`. -/
def emit_rust_test (package : Package) (node : Node)
    (packages_map : List (String × Package)) (test_target : Target)
    (manifest_dir : String) (buckal_name : String) (ctx : BuckalContext) :
    Option RustTest :=
  let rust_test : RustTest :=
    { name := buckal_name
      srcs := [get_vendor_target package]
      crate_name := replaceChar '-' '_' test_target.name
      crate_root := ""
      edition := package.edition
      target_compatible_with := []
      compatible_with := []
      exec_compatible_with := []
      env := []
      features := btsOfList node.features
      rustc_flags := [manifestFlag package.name]
      named_deps := []
      os_named_deps := []
      os_deps := []
      visibility := ["PUBLIC"]
      deps := [] }
  match pathStrip test_target.src_path manifest_dir with
  | none => none
  | some rel =>
      let rust_test := { rust_test with
        crate_root := "vendor/" ++ normalize_path_for_buck rel }
      match set_deps rust_test.cap node packages_map CargoTargetKind.test
          ctx with
      | .error _ => none
      | .ok st =>
          let rust_test := rust_test.withCap st.rule
          let rust_test := match lookup_platforms package.name with
            | some platforms =>
                { rust_test with compatible_with := buck_labels platforms }
            | none => rust_test
          some rust_test

/-- `emit_buildscript_build`. -/
def emit_buildscript_build (build_target : Target) (package : Package)
    (node : Node) (packages_map : List (String × Package))
    (manifest_dir : String) (ctx : BuckalContext) : Option RustBinary :=
  let buildscript_build : RustBinary :=
    { name := package.name ++ "-" ++ build_target.name
      srcs := [get_vendor_target package]
      crate_name := replaceChar '-' '_' build_target.name
      crate_root := ""
      edition := package.edition
      target_compatible_with := []
      compatible_with := []
      exec_compatible_with := []
      env := []
      features := btsOfList node.features
      rustc_flags := [manifestFlag package.name]
      named_deps := []
      os_named_deps := []
      os_deps := []
      visibility := []
      deps := [] }
  match pathStrip build_target.src_path manifest_dir with
  | none => none
  | some rel =>
      let buildscript_build := { buildscript_build with
        crate_root := "vendor/" ++ (replaceChar '\\' '/' rel) }
      match set_deps buildscript_build.cap node packages_map
          CargoTargetKind.customBuild ctx with
      | .error _ => none
      | .ok st => some (buildscript_build.withCap st.rule)

/-- The per-dependency body of `emit_buildscript_run`'s links loop.
`none` models the `panic!` on a links package without a build script. -/
def buildscriptRunDepStep (packages_map : List (String × Package))
    (ctx : BuckalContext) (br : BuildscriptRun) (dep : NodeDep) :
    Option BuildscriptRun :=
  match mapLookup packages_map dep.pkg with
  | none => some br
  | some dep_package =>
      if dep_package.links.isSome ∧
          dep.dep_kinds.any (fun dk =>
            dep_kind_matches CargoTargetKind.lib dk.kind &&
              (match dk.target with
                | some platform =>
                    platform.matches ctx.host_target ctx.host_cfgs
                | none => true)) then
        match dep_package.targets.find?
            (fun t => t.kind.contains TargetKind.customBuild) with
        | some build_target_dep =>
            let build_name_dep := get_build_name build_target_dep.name
            let entry := "//" ++ RUST_CRATES_ROOT ++ "/" ++
              dep_package.name ++ "/" ++ dep_package.version ++ ":" ++
              dep_package.name ++ "-" ++ build_name_dep ++ "-run[metadata]"
            some { br with env_srcs := btsInsert br.env_srcs entry }
        | none => none
      else some br

/-- `emit_buildscript_run`.  The host target/cfg queries (`get_target`,
`get_cfgs`) are read from the context model. -/
def emit_buildscript_run (package : Package) (node : Node)
    (packages_map : List (String × Package)) (build_target : Target)
    (ctx : BuckalContext) : Option BuildscriptRun :=
  let build_name := get_build_name build_target.name
  let buildscript_run : BuildscriptRun :=
    { name := package.name ++ "-" ++ build_name ++ "-run"
      package_name := package.name
      buildscript_rule := ":" ++ package.name ++ "-" ++ build_target.name
      env := []
      env_srcs := [":" ++ package.name ++ "-manifest[env_dict]"]
      features := btsOfList node.features
      version := package.version
      manifest_dir := ":" ++ package.name ++ "-vendor"
      visibility := ["PUBLIC"] }
  node.deps.foldlM (buildscriptRunDepStep packages_map ctx) buildscript_run

/-- `patch_with_buildscript`: wire the build-script run rule's outputs into
a rust rule's environment and compiler flags. -/
def patch_with_buildscript (cap : DepCap) (build_target : Target)
    (package : Package) : DepCap :=
  let build_name := get_build_name build_target.name
  { cap with
    env := mapInsert cap.env "OUT_DIR"
      ("$(location :" ++ package.name ++ "-" ++ build_name ++
        "-run[out_dir])")
    rustc_flags := btsInsert cap.rustc_flags
      ("@$(location :" ++ package.name ++ "-" ++ build_name ++
        "-run[rustc_flags])") }

/-- `emit_http_archive` (`none` models the checksum `unwrap`). -/
def emit_http_archive (package : Package) (ctx : BuckalContext) :
    Option HttpArchive :=
  match mapLookup ctx.checksums_map (package.name ++ "-" ++ package.version)
      with
  | none => none
  | some checksum =>
      some
        { name := package.name ++ "-vendor"
          urls := ["https://static.crates.io/crates/" ++ package.name ++ "/" ++
            package.name ++ "-" ++ package.version ++ ".crate"]
          sha256 := checksum
          typ := "tar.gz"
          stripPfx := package.name ++ "-" ++ package.version
          out := some "vendor" }

/-- `emit_filegroup`. -/
def emit_filegroup (package : Package) : FileGroup :=
  { name := package.name ++ "-vendor"
    srcs := { include_ := ["**/**"], exclude := [] }
    out := some "vendor" }

/-- `emit_cargo_manifest`. -/
def emit_cargo_manifest (package : Package) : CargoManifest :=
  { name := package.name ++ "-manifest"
    vendor := get_vendor_target package }

/-! ## Per-node rule sets (src/buckify/rules.rs) -/

/-- The library-target filter used by `buckify_dep_node` and
`buckify_root_node`. -/
def isLibKind (t : Target) : Bool :=
  t.kind.contains TargetKind.lib || t.kind.contains TargetKind.cdylib ||
    t.kind.contains TargetKind.dylib || t.kind.contains TargetKind.rlib ||
    t.kind.contains TargetKind.staticlib ||
    t.kind.contains TargetKind.procMacro

/-- `buckify_dep_node`: the rule set for one third-party node.  `none`
models any of the body's panics/exits (missing package, missing library
target, checksum or crate-root failures, `set_deps` failure). -/
def buckify_dep_node (node : Node) (ctx : BuckalContext) :
    Option (List Rule) := do
  let package ← mapLookup ctx.packages_map node.id
  let manifest_dir ← pathParent package.manifest_path
  let lib_target ← package.targets.find? isLibKind
  let http_archive ← emit_http_archive package ctx
  let cargo_manifest := emit_cargo_manifest package
  let rust_library ← emit_rust_library package node ctx.packages_map
    lib_target manifest_dir package.name ctx
  let buck_rules := [Rule.httpArchive http_archive,
    Rule.cargoManifest cargo_manifest, Rule.rustLibrary rust_library]
  match package.targets.find?
      (fun t => t.kind.contains TargetKind.customBuild) with
  | none => pure buck_rules
  | some build_target => do
      let buck_rules := buck_rules.map
        (Rule.patchRustRule
          (fun c => patch_with_buildscript c build_target package))
      let buildscript_build ← emit_buildscript_build build_target package
        node ctx.packages_map manifest_dir ctx
      let buildscript_run ← emit_buildscript_run package node
        ctx.packages_map build_target ctx
      pure (buck_rules ++ [Rule.rustBinary buildscript_build,
        Rule.buildscriptRun buildscript_run])

/-- The bin-target loop body of `buckify_root_node`. -/
def rootBinRule (package : Package) (node : Node) (ctx : BuckalContext)
    (lib_targets : List Target) (manifest_dir : String) (bin_target : Target) :
    Option Rule := do
  let buckal_name := bin_target.name
  let rust_binary ← emit_rust_binary package node ctx.packages_map bin_target
    manifest_dir buckal_name ctx
  let rust_binary :=
    if lib_targets.any (fun l => l.name = bin_target.name) then
      -- `main.rs` may use items from `lib.rs` via the crate's own name.
      { rust_binary with
        deps := btsInsert rust_binary.deps (":lib" ++ bin_target.name) }
    else rust_binary
  pure (Rule.rustBinary rust_binary)

/-- The lib-target loop body of `buckify_root_node` (library rule plus the
optional inline-test rule). -/
def rootLibRules (package : Package) (node : Node) (ctx : BuckalContext)
    (bin_targets : List Target) (manifest_dir : String) (lib_target : Target) :
    Option (List Rule) := do
  let buckal_name :=
    if bin_targets.any (fun b => b.name = lib_target.name) then
      "lib" ++ lib_target.name
    else lib_target.name
  let rust_library ← emit_rust_library package node ctx.packages_map
    lib_target manifest_dir buckal_name ctx
  if !ctx.repo_config.ignore_tests ∧ lib_target.test then do
    let test_name := lib_target.name ++ "-unittest"
    let rust_test ← emit_rust_test package node ctx.packages_map lib_target
      manifest_dir test_name ctx
    pure [Rule.rustLibrary rust_library, Rule.rustTest rust_test]
  else
    pure [Rule.rustLibrary rust_library]

/-- The integration-test loop body of `buckify_root_node`. -/
def rootTestRule (package : Package) (node : Node) (ctx : BuckalContext)
    (bin_targets lib_targets : List Target) (manifest_dir : String)
    (test_target : Target) : Option Rule := do
  let buckal_name := test_target.name
  let rust_test ← emit_rust_test package node ctx.packages_map test_target
    manifest_dir buckal_name ctx
  let package_name := replaceChar '-' '_' package.name
  let hasBin := bin_targets.any (fun b => b.name = package_name)
  let rust_test :=
    if hasBin then
      let env := mapInsert rust_test.env ("CARGO_BIN_EXE_" ++ package_name)
        ("$(location :" ++ package_name ++ ")")
      { rust_test with env := env }
    else rust_test
  let rust_test :=
    if lib_targets.any (fun l => l.name = package_name) then
      if hasBin then
        { rust_test with
          deps := btsInsert rust_test.deps (":lib" ++ package_name) }
      else
        { rust_test with
          deps := btsInsert rust_test.deps (":" ++ package_name) }
    else rust_test
  pure (Rule.rustTest rust_test)

/-- `buckify_root_node`: the rule set for the first-party root node. -/
def buckify_root_node (node : Node) (ctx : BuckalContext) :
    Option (List Rule) := do
  let package ← mapLookup ctx.packages_map node.id
  let bin_targets := package.targets.filter
    (fun t => t.kind.contains TargetKind.bin)
  let lib_targets := package.targets.filter isLibKind
  let test_targets := package.targets.filter
    (fun t => t.kind.contains TargetKind.test)
  let manifest_dir ← pathParent package.manifest_path
  let filegroup := emit_filegroup package
  let cargo_manifest := emit_cargo_manifest package
  let binRules ← bin_targets.mapM
    (rootBinRule package node ctx lib_targets manifest_dir)
  let libRules ← lib_targets.mapM
    (rootLibRules package node ctx bin_targets manifest_dir)
  let testRules ←
    if !ctx.repo_config.ignore_tests then
      test_targets.mapM
        (rootTestRule package node ctx bin_targets lib_targets manifest_dir)
    else pure []
  let buck_rules := [Rule.fileGroup filegroup,
    Rule.cargoManifest cargo_manifest] ++ binRules ++ libRules.flatten ++
    testRules
  match package.targets.find?
      (fun t => t.kind.contains TargetKind.customBuild) with
  | none => pure buck_rules
  | some build_target => do
      let buck_rules := buck_rules.map
        (Rule.patchRustRule
          (fun c => patch_with_buildscript c build_target package))
      let buildscript_build ← emit_buildscript_build build_target package
        node ctx.packages_map manifest_dir ctx
      let buildscript_run ← emit_buildscript_run package node
        ctx.packages_map build_target ctx
      pure (buck_rules ++ [Rule.rustBinary buildscript_build,
        Rule.buildscriptRun buildscript_run])

/-! ## The test-compatibility AST patcher (src/buckify/cross.rs)

The patcher parses the generated text with the external `starlark_syntax`
crate and splices clauses at span positions.  The AST surface the walk
inspects is modelled below; the parser itself (`AstModule::parse`) is a
parameter of the patch function, and byte positions are modelled as
character positions (the generated text and the spliced clause are
ASCII). -/

/-- One call argument (`ArgumentP`): named or anything else. -/
inductive SArg : Type
  | named (name : String)
  | positional
deriving DecidableEq, Repr

/-- The expression surface `find_rust_test_call` matches on. -/
inductive StExpr : Type
  | call (ident : String) (args : List SArg) (spanEnd : Nat)
  | otherExpr
deriving DecidableEq, Repr

/-- The statement surface `collect_rust_test_insert_positions` walks. -/
inductive StStmt : Type
  | statements (ss : List StStmt)
  | expression (e : StExpr)
  | otherStmt

/-- `call_has_arg`. -/
def call_has_arg (args : List SArg) (name : String) : Bool :=
  args.any (fun a =>
    match a with
    | .named n => n = name
    | .positional => false)

/-- `insert_pos_before_closing_paren`: `span.end().checked_sub(1)`. -/
def insert_pos_before_closing_paren (spanEnd : Nat) : Option Nat :=
  if spanEnd = 0 then none else some (spanEnd - 1)

/-- `find_rust_test_call`: a `rust_test` call without a
`target_compatible_with` argument yields its insertion position. -/
def find_rust_test_call : StExpr → Option Nat
  | .call ident args spanEnd =>
      if ident = "rust_test" then
        if call_has_arg args "target_compatible_with" then none
        else insert_pos_before_closing_paren spanEnd
      else none
  | .otherExpr => none

mutual

/-- `collect_rust_test_insert_positions` (returned in traversal order). -/
def collect_rust_test_insert_positions : StStmt → List Nat
  | .statements ss => collectStmtList ss
  | .expression e =>
      match find_rust_test_call e with
      | some pos => [pos]
      | none => []
  | .otherStmt => []

/-- The statement-list walk of `collect_rust_test_insert_positions`. -/
def collectStmtList : List StStmt → List Nat
  | [] => []
  | s :: ss => collect_rust_test_insert_positions s ++ collectStmtList ss

end

/-- `CROSS_SELECT_EXPR`. -/
def CROSS_SELECT_EXPR : String :=
  "select(\x7b\"//platforms:cross\": [\"config//:none\"], \"DEFAULT\": []\x7d)"

/-- `String::insert_str` at a character position. -/
def strInsert (s : String) (pos : Nat) (ins : String) : String :=
  ⟨s.data.take pos ++ ins.data ++ s.data.drop pos⟩

/-- `needs_leading_comma`: walk backwards over the text before the
insertion point, skip whitespace, and require a comma. -/
def needs_leading_comma (content : String) (insert_pos : Nat) : Bool :=
  match (content.data.take insert_pos).reverse.find?
      (fun c => !c.isWhitespace) with
  | some c => c ≠ ','
  | none => true

/-- `build_insert`: the clause spliced before the call's closing paren. -/
def build_insert (content : String) (insert_pos : Nat) : String :=
  (if needs_leading_comma content insert_pos then "," else "") ++ "\n" ++
    "    target_compatible_with = " ++ CROSS_SELECT_EXPR ++ ",\n"

/-- `patch_rust_test_target_compatible_with`.  `parse` abstracts
`AstModule::parse` (`none` = parse error). -/
def patch_rust_test_target_compatible_with
    (parse : String → Option StStmt) (buck_content : String) : String :=
  match parse buck_content with
  | none => buck_content
  | some ast =>
      let insert_positions := collect_rust_test_insert_positions ast
      if insert_positions.isEmpty then buck_content
      else
        let sorted := insert_positions.mergeSort (fun a b => a ≤ b)
        sorted.reverse.foldl
          (fun out pos =>
            if out.data.length ≤ pos then out
            else strInsert out pos (build_insert out pos))
          buck_content

/-! # Theorems

Helper lemmas first, then one theorem per claim (with witnesses and
counterexamples where the claim's status calls for them). -/

/-! ## Map and set lemmas -/

theorem mapLookup_eq_none {V : Type} (m : List (String × V)) (k : String) :
    mapLookup m k = none ↔ k ∉ m.map Prod.fst := by
  induction m with
  | nil => simp [mapLookup]
  | cons kv rest ih =>
      obtain ⟨k', v⟩ := kv
      by_cases h : k' = k
      · subst h
        simp [mapLookup]
      · simp [mapLookup, h, ih, Ne.symm h]

theorem mem_of_mapLookup {V : Type} {m : List (String × V)} {k : String}
    {v : V} (h : mapLookup m k = some v) : (k, v) ∈ m := by
  induction m with
  | nil => simp [mapLookup] at h
  | cons kv rest ih =>
      obtain ⟨k', v'⟩ := kv
      by_cases hk : k' = k
      · subst hk
        simp [mapLookup] at h
        simp [h]
      · simp [mapLookup, hk] at h
        simp [ih h]

theorem mapLookup_of_mem {V : Type} {m : List (String × V)} {k : String}
    {v : V} (hn : (m.map Prod.fst).Nodup) (h : (k, v) ∈ m) :
    mapLookup m k = some v := by
  induction m with
  | nil => simp at h
  | cons kv rest ih =>
      obtain ⟨k', v'⟩ := kv
      rw [List.map_cons, List.nodup_cons] at hn
      rcases List.mem_cons.mp h with h1 | h1
      · cases h1
        simp [mapLookup]
      · have hne : k' ≠ k := by
          intro he
          subst he
          exact hn.1 (List.mem_map.mpr ⟨(k', v), h1, rfl⟩)
        simp [mapLookup, hne, ih hn.2 h1]

theorem mapContains_iff {V : Type} (m : List (String × V)) (k : String) :
    mapContains m k = true ↔ k ∈ m.map Prod.fst := by
  unfold mapContains
  rcases h : mapLookup m k with _ | v
  · simpa using (mapLookup_eq_none m k).mp h
  · simp only [Option.isSome_some, true_iff]
    exact List.mem_map.mpr ⟨(k, v), mem_of_mapLookup h, rfl⟩

theorem mapLookup_mapInsert {V : Type} (m : List (String × V)) (k k' : String)
    (v : V) :
    mapLookup (mapInsert m k v) k' =
      if k = k' then some v else mapLookup m k' := by
  induction m with
  | nil => by_cases h : k = k' <;> simp [mapInsert, mapLookup, h]
  | cons kv rest ih =>
      obtain ⟨k₀, v₀⟩ := kv
      by_cases h0 : k₀ = k
      · subst h0
        by_cases h1 : k₀ = k' <;> simp [mapInsert, mapLookup, h1]
      · by_cases h1 : k₀ = k'
        · subst h1
          have : k ≠ k₀ := Ne.symm h0
          simp [mapInsert, mapLookup, h0, this]
        · simp [mapInsert, mapLookup, h0, h1, ih]

theorem mapInsert_lookup_self {V : Type} {m : List (String × V)} {k : String}
    {v : V} (h : mapLookup m k = some v) : mapInsert m k v = m := by
  induction m with
  | nil => simp [mapLookup] at h
  | cons kv rest ih =>
      obtain ⟨k₀, v₀⟩ := kv
      by_cases h0 : k₀ = k
      · subst h0
        simp [mapLookup] at h
        simp [mapInsert, h]
      · simp [mapLookup, h0] at h
        simp [mapInsert, h0, ih h]

theorem mem_btsInsert (s : List String) (x y : String) :
    y ∈ btsInsert s x ↔ y ∈ s ∨ y = x := by
  unfold btsInsert
  by_cases h : x ∈ s
  · simp only [if_pos h]
    constructor
    · exact Or.inl
    · rintro (hy | rfl)
      · exact hy
      · exact h
  · simp only [if_neg h, List.mem_orderedInsert]
    tauto

theorem btsInsert_of_mem {s : List String} {x : String} (h : x ∈ s) :
    btsInsert s x = s := by
  simp [btsInsert, h]

/-! ## Fingerprint encoding lemmas (claim C3) -/

theorem decChars_enc (cs : List Char) (rest : List Tok) :
    decChars cs.length (cs.map Tok.ch ++ rest) = some (cs, rest) := by
  induction cs with
  | nil => rfl
  | cons c cs ih => simp [decChars, ih]

theorem decStr_enc (s : String) (rest : List Tok) :
    decStr (encStr s ++ rest) = some (s, rest) := by
  cases s with
  | mk data => simp [encStr, decStr, decChars_enc]

theorem decStrs_enc (xs : List String) (rest : List Tok) :
    decStrs xs.length (xs.foldr (fun s acc => encStr s ++ acc) [] ++ rest) =
      some (xs, rest) := by
  induction xs with
  | nil => rfl
  | cons x xs ih => simp [decStrs, List.append_assoc, decStr_enc, ih]

theorem decStrList_enc (xs : List String) (rest : List Tok) :
    decStrList (encStrList xs ++ rest) = some (xs, rest) := by
  simp [encStrList, decStrList, decStrs_enc]

theorem decKind_enc (k : NodeKind) (rest : List Tok) :
    decKind (encKind k ++ rest) = some (k, rest) := by
  cases k with
  | firstParty rp => simp [encKind, decKind, decStr_enc]
  | thirdParty => rfl

theorem decNode_enc (n : BuckalNode) (rest : List Tok) :
    decNode (encNode n ++ rest) = some (n, rest) := by
  cases n
  simp [encNode, decNode, List.append_assoc, decStr_enc, decStrList_enc,
    decKind_enc]

theorem encNode_injective : Function.Injective encNode := by
  intro a b h
  have ha := decNode_enc a []
  have hb := decNode_enc b []
  rw [List.append_nil] at ha hb
  rw [h, hb] at ha
  exact (Prod.ext_iff.mp (Option.some.inj ha)).1.symm

/-- The concrete node family of the C3 counterexample. -/
def c3node (fs : List String) : BuckalNode :=
  ⟨"id-foo", "foo", "1.0.0", fs, NodeKind.thirdParty, "2021", []⟩

/-- C3 counterexample: two nodes whose activated feature sets are equal as
sets (the feature lists are permutations of each other) and whose other
semantic fields are identical nevertheless receive different fingerprints,
because the fingerprint hashes the `Vec<String>` in collection order.
This refutes "fingerprint returns the same value regardless of the order
in which the features ... were collected". -/
theorem c3_fingerprint_order_counterexample :
    (c3node ["a", "b"]).features.Perm (c3node ["b", "a"]).features ∧
    (c3node ["a", "b"]).name = (c3node ["b", "a"]).name ∧
    (c3node ["a", "b"]).version = (c3node ["b", "a"]).version ∧
    (c3node ["a", "b"]).edition = (c3node ["b", "a"]).edition ∧
    (c3node ["a", "b"]).kind = (c3node ["b", "a"]).kind ∧
    (c3node ["a", "b"]).dep_ids = (c3node ["b", "a"]).dep_ids ∧
    (c3node ["a", "b"]).fingerprint ≠ (c3node ["b", "a"]).fingerprint := by
  refine ⟨by decide, rfl, rfl, rfl, rfl, rfl, by decide⟩

/-- C3 (amended): the fingerprint is determined by — and determines — the
node record itself: two nodes receive the same fingerprint exactly when
every semantic field agrees *including the collection order* of the
feature and dependency-identifier vectors; consequently changing any one
semantic field changes the fingerprint (the blake3 digest is modelled as
injective on the canonical bincode encoding). -/
theorem c3_fingerprint_record_equality (n m : BuckalNode) :
    n.fingerprint = m.fingerprint ↔ n = m := by
  constructor
  · exact fun h => encNode_injective h
  · intro h
    rw [h]

/-! ## Change-detection lemmas and claim C4 -/

theorem filterMap_fst_sublist {α β : Type} (l : List (String × α))
    (f : String × α → Option (String × β))
    (hf : ∀ x y, f x = some y → y.1 = x.1) :
    ((l.filterMap f).map Prod.fst).Sublist (l.map Prod.fst) := by
  induction l with
  | nil => simp
  | cons x l ih =>
      rcases hx : f x with _ | y
      · simp only [List.filterMap_cons, hx, List.map_cons]
        exact ih.cons _
      · simp only [List.filterMap_cons, hx, List.map_cons]
        rw [hf x y hx]
        exact ih.cons₂ _

theorem mem_value_unique {V : Type} {m : List (String × V)} {k : String}
    {a b : V} (hn : (m.map Prod.fst).Nodup) (ha : (k, a) ∈ m)
    (hb : (k, b) ∈ m) : a = b := by
  have h1 := mapLookup_of_mem hn ha
  have h2 := mapLookup_of_mem hn hb
  rw [h1] at h2
  exact Option.some.inj h2

/-- C4: `diff` classifies every identifier present in either snapshot into
at most one of Added / Changed / Removed: an identifier only in `current`
is Added, present in both with a different fingerprint is Changed, present
in both with the same fingerprint is omitted entirely, and an identifier
only in `previous` is Removed; no identifier appears twice in the change
set, and every entry's identifier comes from one of the two snapshots. -/
theorem c4_diff_classification (current previous : BuckalCache)
    (hc : (current.fingerprints.map Prod.fst).Nodup)
    (hp : (previous.fingerprints.map Prod.fst).Nodup) :
    (((current.diff previous).changes.map Prod.fst).Nodup) ∧
    (∀ id fp, (id, fp) ∈ current.fingerprints →
      mapLookup previous.fingerprints id = none →
      (id, ChangeType.added) ∈ (current.diff previous).changes) ∧
    (∀ id fp fp', (id, fp) ∈ current.fingerprints →
      mapLookup previous.fingerprints id = some fp' → fp' ≠ fp →
      (id, ChangeType.changed) ∈ (current.diff previous).changes) ∧
    (∀ id fp, (id, fp) ∈ current.fingerprints →
      mapLookup previous.fingerprints id = some fp →
      ∀ t, (id, t) ∉ (current.diff previous).changes) ∧
    (∀ id fp', (id, fp') ∈ previous.fingerprints →
      mapLookup current.fingerprints id = none →
      (id, ChangeType.removed) ∈ (current.diff previous).changes) ∧
    (∀ id t, (id, t) ∈ (current.diff previous).changes →
      id ∈ current.fingerprints.map Prod.fst ∨
        id ∈ previous.fingerprints.map Prod.fst) := by
  classical
  set f : String × Fingerprint → Option (String × ChangeType) :=
    fun idfp =>
      match mapLookup previous.fingerprints idfp.1 with
      | none => some (idfp.1, ChangeType.added)
      | some fp' =>
          if fp' ≠ idfp.2 then some (idfp.1, ChangeType.changed) else none
    with hf_def
  set g : String × Fingerprint → Option (String × ChangeType) :=
    fun idfp =>
      if mapContains current.fingerprints idfp.1 then none
      else some (idfp.1, ChangeType.removed)
    with hg_def
  have hchanges : (current.diff previous).changes =
      current.fingerprints.filterMap f ++ previous.fingerprints.filterMap g :=
    rfl
  have hf_fst : ∀ x y, f x = some y → y.1 = x.1 := by
    intro x y hxy
    simp only [hf_def] at hxy
    rcases hl : mapLookup previous.fingerprints x.1 with _ | fp'
    · rw [hl] at hxy
      cases hxy
      rfl
    · rw [hl] at hxy
      by_cases hne : fp' = x.2
      · simp [hne] at hxy
      · simp only [ne_eq, hne, not_false_iff, if_true] at hxy
        cases hxy
        rfl
  have hg_fst : ∀ x y, g x = some y → y.1 = x.1 := by
    intro x y hxy
    simp only [hg_def] at hxy
    by_cases hcont : mapContains current.fingerprints x.1
    · simp [hcont] at hxy
    · simp only [hcont, Bool.false_eq_true, if_false] at hxy
      cases hxy
      rfl
  have hg_not_current : ∀ x y, g x = some y →
      y.1 ∉ current.fingerprints.map Prod.fst := by
    intro x y hxy
    simp only [hg_def] at hxy
    by_cases hcont : mapContains current.fingerprints x.1
    · simp [hcont] at hxy
    · simp only [hcont, Bool.false_eq_true, if_false] at hxy
      cases hxy
      intro hmem
      exact hcont ((mapContains_iff _ _).mpr hmem)
  refine ⟨?_, ?_, ?_, ?_, ?_, ?_⟩
  · -- no identifier appears twice
    rw [hchanges, List.map_append]
    refine List.Nodup.append ?_ ?_ ?_
    · exact (filterMap_fst_sublist _ f hf_fst).nodup hc
    · exact (filterMap_fst_sublist _ g hg_fst).nodup hp
    · intro a ha hb
      rcases List.mem_map.mp ha with ⟨x, hx, rfl⟩
      rcases List.mem_map.mp hb with ⟨y, hy, hxy⟩
      rcases List.mem_filterMap.mp hx with ⟨x₀, hx₀, hfx⟩
      rcases List.mem_filterMap.mp hy with ⟨y₀, hy₀, hgy⟩
      have h1 : x.1 ∈ current.fingerprints.map Prod.fst := by
        rw [hf_fst x₀ x hfx]
        exact List.mem_map.mpr ⟨x₀, hx₀, rfl⟩
      have h2 := hg_not_current y₀ y hgy
      rw [hxy] at h2
      exact h2 h1
  · -- Added
    intro id fp hmem hlook
    rw [hchanges]
    refine List.mem_append.mpr (Or.inl ?_)
    exact List.mem_filterMap.mpr ⟨(id, fp), hmem, by simp [hf_def, hlook]⟩
  · -- Changed
    intro id fp fp' hmem hlook hne
    rw [hchanges]
    refine List.mem_append.mpr (Or.inl ?_)
    exact List.mem_filterMap.mpr ⟨(id, fp), hmem, by simp [hf_def, hlook, hne]⟩
  · -- unchanged identifiers are omitted
    intro id fp hmem hlook t hin
    rw [hchanges] at hin
    rcases List.mem_append.mp hin with h1 | h1
    · rcases List.mem_filterMap.mp h1 with ⟨⟨i, fp₂⟩, hi, hfi⟩
      obtain rfl : id = i := hf_fst _ _ hfi
      have : fp₂ = fp := mem_value_unique hc hi hmem
      subst this
      simp [hf_def, hlook] at hfi
    · rcases List.mem_filterMap.mp h1 with ⟨⟨i, fp'⟩, hi, hgi⟩
      obtain rfl : id = i := hg_fst _ _ hgi
      have := hg_not_current _ _ hgi
      exact this (List.mem_map.mpr ⟨(id, fp), hmem, rfl⟩)
  · -- Removed
    intro id fp' hmem hlook
    rw [hchanges]
    refine List.mem_append.mpr (Or.inr ?_)
    refine List.mem_filterMap.mpr ⟨(id, fp'), hmem, ?_⟩
    simp [hg_def, mapContains, hlook]
  · -- completeness of provenance
    intro id t hin
    rw [hchanges] at hin
    rcases List.mem_append.mp hin with h1 | h1
    · rcases List.mem_filterMap.mp h1 with ⟨x₀, hx₀, hfx⟩
      left
      have hx1 : id = x₀.1 := hf_fst _ _ hfx
      rw [hx1]
      exact List.mem_map.mpr ⟨x₀, hx₀, rfl⟩
    · rcases List.mem_filterMap.mp h1 with ⟨y₀, hy₀, hgy⟩
      right
      have hy1 : id = y₀.1 := hg_fst _ _ hgy
      rw [hy1]
      exact List.mem_map.mpr ⟨y₀, hy₀, rfl⟩

/-- C4 witness: the classification theorem applied to a concrete pair of
snapshots exercising added, changed, unchanged and removed identifiers. -/
theorem c4_diff_classification_witness :
    (BuckalCache.mk [("n", [Tok.nat 1]), ("s", [Tok.nat 2]),
        ("c", [Tok.nat 3])]).diff
      (BuckalCache.mk [("s", [Tok.nat 2]), ("c", [Tok.nat 4]),
        ("r", [Tok.nat 5])]) =
      ⟨[("n", ChangeType.added), ("c", ChangeType.changed),
        ("r", ChangeType.removed)]⟩ ∧
    (("n", ChangeType.added) ∈
      ((BuckalCache.mk [("n", [Tok.nat 1]), ("s", [Tok.nat 2]),
          ("c", [Tok.nat 3])]).diff
        (BuckalCache.mk [("s", [Tok.nat 2]), ("c", [Tok.nat 4]),
          ("r", [Tok.nat 5])])).changes) := by
  refine ⟨by decide, ?_⟩
  exact (c4_diff_classification
    (BuckalCache.mk [("n", [Tok.nat 1]), ("s", [Tok.nat 2]),
      ("c", [Tok.nat 3])])
    (BuckalCache.mk [("s", [Tok.nat 2]), ("c", [Tok.nat 4]),
      ("r", [Tok.nat 5])])
    (by decide) (by decide)).2.1 "n" [Tok.nat 1] (by decide) (by decide)

/-! ## Claim C5: applying a change set -/

/-- The root package of the C5 scenario. -/
def c5rootPkg : Package :=
  ⟨"path+file:///ws#demo-root@1.0.0", "demo-root", "1.0.0", "/ws/Cargo.toml",
   [], none, "2021", none⟩

/-- A third-party package of the C5 scenario. -/
def c5barPkg : Package :=
  ⟨"registry+https://github.com/rust-lang/crates.io-index#bar@1.0.0", "bar",
   "1.0.0", "/home/.cargo/bar-1.0.0/Cargo.toml", [],
   some "registry+https://github.com/rust-lang/crates.io-index", "2021", none⟩

/-- The context of the C5 scenario. -/
def c5ctx : BuckalContext :=
  { root := c5rootPkg
    nodes_map := [(c5rootPkg.id, ⟨c5rootPkg.id, [], []⟩),
      (c5barPkg.id, ⟨c5barPkg.id, [], []⟩)]
    packages_map := [(c5rootPkg.id, c5rootPkg), (c5barPkg.id, c5barPkg)]
    checksums_map := [("bar-1.0.0", "cafe")]
    workspace_root := "/ws"
    no_merge := false
    separate := false
    repo_config := ⟨false, true, []⟩
    buck2_root := "/ws"
    cfg_db := fallback_cfgs_for_triple
    host_target := "x86_64-unknown-linux-gnu"
    host_cfgs := [] }

/-- C5 counterexample: the claim says the root node "is eligible for
regeneration when its entry is Added or Changed", but `apply` explicitly
skips the root package for Added and Changed entries (it is regenerated by
the separate `flush_root` pass), even though its node and package data are
available and separate mode is off. -/
theorem c5_root_added_skipped_counterexample :
    (mapLookup c5ctx.nodes_map c5ctx.root.id).isSome = true ∧
    (mapLookup c5ctx.packages_map c5ctx.root.id).isSome = true ∧
    c5ctx.separate = false ∧
    applyStep c5ctx (c5ctx.root.id, ChangeType.added) = some ApplyStep.skip ∧
    applyStep c5ctx (c5ctx.root.id, ChangeType.changed) =
      some ApplyStep.skip := by
  refine ⟨rfl, rfl, rfl, rfl, rfl⟩

/-- C5 (amended): within `apply` the root node is excluded from *all*
regeneration — its Added/Changed entries are skipped (the root is
regenerated by the separate `flush_root` pass), and Removed entries are
skipped for every identifier under the workspace path, the root included.
A non-root entry with available node and package data is processed per its
classification: regenerated for Added/Changed unless it is a first-party
package in separate mode, and removed via the name/version parsed from its
identifier for Removed when the identifier is not under the workspace
path.  Added and Changed entries take the same decision path. -/
theorem c5_apply_step_classification (ctx : BuckalContext) (id : String) :
    (applyStep ctx (id, ChangeType.added) =
      applyStep ctx (id, ChangeType.changed)) ∧
    (id = ctx.root.id →
      applyStep ctx (id, ChangeType.added) = some ApplyStep.skip) ∧
    (strIsPfx ("path+file://" ++ ctx.workspace_root) id = true →
      applyStep ctx (id, ChangeType.removed) = some ApplyStep.skip) ∧
    (∀ node package, id ≠ ctx.root.id →
      mapLookup ctx.nodes_map id = some node →
      mapLookup ctx.packages_map id = some package →
      ¬(ctx.separate = true ∧ package.source = none) →
      applyStep ctx (id, ChangeType.added) =
        some (ApplyStep.regen (package.source = none))) ∧
    (∀ n v, strIsPfx ("path+file://" ++ ctx.workspace_root) id = false →
      parsePackageId id = some (n, v) →
      applyStep ctx (id, ChangeType.removed) =
        some (ApplyStep.removeDir n v)) := by
  refine ⟨rfl, ?_, ?_, ?_, ?_⟩
  · intro h
    simp [applyStep, h]
  · intro h
    simp [applyStep, h]
  · intro node package hne hn hpkg hsep
    simp [applyStep, hne, hn, hpkg, hsep]
  · intro n v hpre hparse
    simp [applyStep, hpre, hparse]

/-- C5 witness: the classification theorem applied to the concrete
third-party entry of the C5 scenario. -/
theorem c5_apply_step_classification_witness :
    applyStep c5ctx (c5barPkg.id, ChangeType.added) =
      some (ApplyStep.regen false) ∧
    applyStep c5ctx (c5barPkg.id, ChangeType.removed) =
      some (ApplyStep.removeDir "bar" "1.0.0") := by
  constructor
  · have h := (c5_apply_step_classification c5ctx c5barPkg.id).2.2.2.1
      ⟨c5barPkg.id, [], []⟩ c5barPkg (by decide) rfl rfl (by decide)
    simpa using h
  · exact (c5_apply_step_classification c5ctx c5barPkg.id).2.2.2.2 "bar"
      "1.0.0" (by decide) (by decide)

/-! ## Claim C2: `insert_dep` conflict handling -/

/-- C2: `insert_dep` conflict handling.  Inserting an unconditional named
dependency whose alias is already mapped to a different target keeps the
first value and emits a warning; inserting the same target again is a
silent no-op.  Inserting a platform-scoped named dependency whose
(alias, OS) key is already mapped to a different target is an error, while
re-inserting the same target is accepted without change.  Unnamed
unconditional insertion has set semantics: a duplicate label is a no-op. -/
theorem c2_insert_dep_conflicts (rule : DepCap) (t t₀ a : String) (os : Os) :
    (mapLookup rule.named_deps a = some t₀ → t₀ ≠ t →
      insert_dep rule t (some a) none =
        .ok (rule, ["named_deps alias '" ++ a ++
          "' had conflicting targets: '" ++ t₀ ++ "' vs '" ++ t ++ "'"])) ∧
    (mapLookup rule.named_deps a = some t →
      insert_dep rule t (some a) none = .ok (rule, [])) ∧
    (mapLookup (mapGetOrDefault rule.os_named_deps a []) os.key = some t₀ →
      t₀ ≠ t →
      insert_dep rule t (some a) (some [os]) =
        .error ("os_named_deps alias '" ++ a ++
          "' had conflicting targets for platform '" ++ os.key ++ "': '" ++
          t₀ ++ "' vs '" ++ t ++ "'")) ∧
    (mapLookup (mapGetOrDefault rule.os_named_deps a []) os.key = some t →
      insert_dep rule t (some a) (some [os]) = .ok (rule, [])) ∧
    (insert_dep rule t none none =
      .ok ({ rule with deps := btsInsert rule.deps t }, [])) ∧
    (t ∈ rule.deps → insert_dep rule t none none = .ok (rule, [])) := by
  refine ⟨?_, ?_, ?_, ?_, rfl, ?_⟩
  · intro hl hne
    simp [insert_dep, hl, hne]
  · intro hl
    simp [insert_dep, hl]
  · intro hl hne
    simp [insert_dep, List.foldlM, insertDepOs, hl, hne]
  · intro hl
    simp [insert_dep, List.foldlM, insertDepOs, hl]
  · intro hmem
    simp [insert_dep, btsInsert_of_mem hmem]

/-- The concrete rule of the C2 witness. -/
def c2rule : DepCap :=
  ⟨["//crates/c:c"], [], [], [], [("a", "//crates/x:x")],
   [("a", [("linux", "//crates/x:x")])]⟩

/-- C2 witness: the conflict-handling theorem at a concrete rule. -/
theorem c2_insert_dep_conflicts_witness :
    insert_dep c2rule "//crates/y:y" (some "a") none =
      .ok (c2rule, ["named_deps alias 'a' had conflicting targets: " ++
        "'//crates/x:x' vs '//crates/y:y'"]) ∧
    insert_dep c2rule "//crates/x:x" (some "a") none = .ok (c2rule, []) ∧
    insert_dep c2rule "//crates/y:y" (some "a") (some [Os.linux]) =
      .error ("os_named_deps alias 'a' had conflicting targets for " ++
        "platform 'linux': '//crates/x:x' vs '//crates/y:y'") ∧
    insert_dep c2rule "//crates/x:x" (some "a") (some [Os.linux]) =
      .ok (c2rule, []) ∧
    insert_dep c2rule "//crates/c:c" none none = .ok (c2rule, []) := by
  have h := c2_insert_dep_conflicts c2rule "//crates/y:y" "//crates/x:x" "a"
    Os.linux
  have h2 := c2_insert_dep_conflicts c2rule "//crates/x:x" "//crates/x:x" "a"
    Os.linux
  have h3 := c2_insert_dep_conflicts c2rule "//crates/c:c" "//crates/c:c" "a"
    Os.linux
  refine ⟨?_, ?_, ?_, ?_, ?_⟩
  · have := h.1 (by decide) (by decide)
    simpa using this
  · have := h2.2.1 (by decide)
    simpa using this
  · have := h.2.2.1 (by decide) (by decide)
    simpa using this
  · have := h2.2.2.2.1 (by decide)
    simpa using this
  · have := h3.2.2.2.2.2 (by decide)
    simpa using this

/-! ## Claim C1: `set_deps` edge classification -/

theorem scanStep_keeps_unconditional (db : String → Option (List Cfg))
    {s : DepScan} (dk : DepKindInfo) (h : s.unconditional = true) :
    (scanStep db s dk).unconditional = true := by
  unfold scanStep
  rcases dk.target with _ | p
  · rfl
  · dsimp only
    split
    · split <;> simp [h]
    · simp [h]

theorem foldl_scan_keeps_unconditional (db : String → Option (List Cfg))
    {s : DepScan} (l : List DepKindInfo) (h : s.unconditional = true) :
    (l.foldl (scanStep db) s).unconditional = true := by
  induction l generalizing s with
  | nil => exact h
  | cons dk rest ih => exact ih (scanStep_keeps_unconditional db dk h)

theorem foldl_scan_unconditional_of_none (db : String → Option (List Cfg))
    {s : DepScan} {l : List DepKindInfo} {dk : DepKindInfo} (hmem : dk ∈ l)
    (ht : dk.target = none) :
    (l.foldl (scanStep db) s).unconditional = true := by
  induction l generalizing s with
  | nil => simp at hmem
  | cons dk₀ rest ih =>
      rcases List.mem_cons.mp hmem with rfl | hmem'
      · refine foldl_scan_keeps_unconditional db rest ?_
        unfold scanStep
        rw [ht]
      · exact ih hmem'

theorem foldl_scan_unconditional_of_unmapped
    (db : String → Option (List Cfg)) {s : DepScan} {l : List DepKindInfo}
    {dk : DepKindInfo} {p : Platform} (hmem : dk ∈ l)
    (ht : dk.target = some p) (hoses : oses_from_platform db p = [])
    (hto : platform_is_target_only p = false) :
    (l.foldl (scanStep db) s).unconditional = true := by
  induction l generalizing s with
  | nil => simp at hmem
  | cons dk₀ rest ih =>
      rcases List.mem_cons.mp hmem with rfl | hmem'
      · refine foldl_scan_keeps_unconditional db rest ?_
        unfold scanStep
        rw [ht]
        simp [hoses, hto]
      · exact ih hmem'

theorem foldl_scan_all_unsupported (db : String → Option (List Cfg))
    {l : List DepKindInfo}
    (hall : ∀ dk ∈ l, ∃ p, dk.target = some p ∧
      oses_from_platform db p = [] ∧ platform_is_target_only p = true)
    (hne : l ≠ []) (s : DepScan) :
    l.foldl (scanStep db) s = { s with has_unsupported_platform := true } := by
  classical
  induction l generalizing s with
  | nil => exact absurd rfl hne
  | cons dk rest ih =>
      obtain ⟨p, ht, hoses, hto⟩ := hall dk (List.mem_cons_self dk rest)
      have hstep : scanStep db s dk = { s with has_unsupported_platform := true } := by
        unfold scanStep
        rw [ht]
        simp [hoses, hto]
      by_cases hrest : rest = []
      · subst hrest
        simpa [List.foldl] using hstep
      · have := ih (fun dk' h' => hall dk' (List.mem_cons_of_mem _ h')) hrest
          { s with has_unsupported_platform := true }
        simp only [List.foldl_cons, hstep, this]

theorem foldl_scan_all_resolvable (db : String → Option (List Cfg))
    {l : List DepKindInfo}
    (hall : ∀ dk ∈ l, ∃ p, dk.target = some p ∧
      oses_from_platform db p ≠ []) (s : DepScan) :
    ((l.foldl (scanStep db) s).unconditional = s.unconditional ∧
     (l.foldl (scanStep db) s).has_unsupported_platform =
       s.has_unsupported_platform) := by
  induction l generalizing s with
  | nil => exact ⟨rfl, rfl⟩
  | cons dk rest ih =>
      obtain ⟨p, ht, hoses⟩ := hall dk (List.mem_cons_self dk rest)
      have hstep : scanStep db s dk =
          { s with platforms := osExtend s.platforms (oses_from_platform db p) } := by
        unfold scanStep
        rw [ht]
        simp [List.isEmpty_iff, hoses]
      have := ih (fun dk' h' => hall dk' (List.mem_cons_of_mem _ h'))
        { s with platforms := osExtend s.platforms (oses_from_platform db p) }
      simpa [List.foldl_cons, hstep] using this

theorem mem_osInsert (s : List Os) (x y : Os) :
    y ∈ osInsert s x ↔ y ∈ s ∨ y = x := by
  unfold osInsert
  by_cases h : x ∈ s
  · simp only [if_pos h]
    constructor
    · exact Or.inl
    · rintro (hy | rfl)
      · exact hy
      · exact h
  · simp only [if_neg h, List.mem_orderedInsert]
    tauto

theorem mem_osExtend (s : List Os) (l : List Os) (y : Os) :
    y ∈ osExtend s l ↔ y ∈ s ∨ y ∈ l := by
  induction l generalizing s with
  | nil => simp [osExtend]
  | cons x rest ih =>
      unfold osExtend at ih ⊢
      rw [List.foldl_cons, ih, mem_osInsert]
      constructor
      · rintro (⟨h | h⟩ | h)
        · exact Or.inl h
        · exact Or.inr (by simp [h])
        · exact Or.inr (by simp [h])
      · rintro (h | h)
        · exact Or.inl (Or.inl h)
        · rcases List.mem_cons.mp h with rfl | h'
          · exact Or.inl (Or.inr rfl)
          · exact Or.inr h'

theorem foldl_scan_platforms_mem (db : String → Option (List Cfg))
    (l : List DepKindInfo) (s : DepScan) (os : Os) :
    os ∈ (l.foldl (scanStep db) s).platforms ↔
      os ∈ s.platforms ∨ ∃ dk ∈ l, ∃ p, dk.target = some p ∧
        os ∈ oses_from_platform db p := by
  induction l generalizing s with
  | nil => simp
  | cons dk rest ih =>
      rw [List.foldl_cons, ih]
      have hstep : os ∈ (scanStep db s dk).platforms ↔
          os ∈ s.platforms ∨ ∃ p, dk.target = some p ∧
            os ∈ oses_from_platform db p := by
        rcases htarget : dk.target with _ | p
        · unfold scanStep
          rw [htarget]
          simp [htarget]
        · unfold scanStep
          rw [htarget]
          dsimp only
          by_cases hq : oses_from_platform db p = []
          · have hbe : (oses_from_platform db p).isEmpty = true := by
              simp [hq]
            simp only [hbe, if_true]
            split <;> simp [htarget, hq]
          · have hbe : (oses_from_platform db p).isEmpty = false := by
              simp [List.isEmpty_iff, hq]
            simp only [hbe, Bool.false_eq_true, if_false]
            simp [mem_osExtend, htarget]
      rw [hstep]
      constructor
      · rintro (⟨h | h⟩ | h)
        · exact Or.inl h
        · exact Or.inr ⟨dk, by simp, h⟩
        · obtain ⟨dk', hdk', hp⟩ := h
          exact Or.inr ⟨dk', by simp [hdk'], hp⟩
      · rintro (h | ⟨dk', hdk', hp⟩)
        · exact Or.inl (Or.inl h)
        · rcases List.mem_cons.mp hdk' with rfl | h'
          · exact Or.inl (Or.inr hp)
          · exact Or.inr ⟨dk', h', hp⟩

theorem insert_dep_unnamed_platforms_ok (rule : DepCap) (t : String)
    (ps : List Os) :
    ∃ cap, insert_dep rule t none (some ps) = .ok (cap, []) := by
  suffices h : ∃ cap, ps.foldlM (insertDepOs t none) rule = .ok cap by
    obtain ⟨cap, hcap⟩ := h
    exact ⟨cap, by simp [insert_dep, hcap]⟩
  induction ps generalizing rule with
  | nil => exact ⟨rule, rfl⟩
  | cons os rest ih =>
      obtain ⟨cap, hcap⟩ := ih { rule with
        os_deps := mapInsert rule.os_deps os.key
          (btsInsert (mapGetOrDefault rule.os_deps os.key []) t) }
      exact ⟨cap, by simpa [List.foldlM, insertDepOs] using hcap⟩

/-- C1 (amended): classification of one dependency edge by `set_deps`
(its loop body `process_dep`), for an edge to a resolvable, un-renamed
dependency.  (i) If any matching dependency-kind entry has no platform
predicate the edge is unconditional.  (ii) If all matching entries are
conditional and each predicate resolves to a non-empty OS set, the edge is
attached platform-scoped to the union of the resolved OS sets.  (iii) If
every matching entry's predicate resolves to the empty set as a pure
target-identity predicate (and there is at least one), the edge is dropped
with a diagnostic note.  (iv) If any matching entry's predicate resolves
to the empty set and is *not* a pure target-identity predicate, the edge
is promoted to unconditional — silently: no diagnostic is recorded, and no
platform-restriction mode exists in the final revision to prevent it.
(v) Whenever the scan classifies the edge unconditional it is inserted
into the plain dependency set, leaving diagnostics unchanged. -/
theorem c1_set_deps_edge_classification
    (packages_map : List (String × Package)) (uwa : Bool)
    (kind : CargoTargetKind) (ctx : BuckalContext) (st : SetDepsState)
    (dep : NodeDep) (dep_package : Package) (label : String)
    (hpkg : mapLookup packages_map dep.pkg = some dep_package)
    (hres : resolve_dep_label dep dep_package uwa ctx.buck2_root =
      .ok (label, none)) :
    ((∃ dk ∈ dep.dep_kinds.filter (fun dk => dep_kind_matches kind dk.kind),
        dk.target = none) →
      (scan_dep_kinds ctx.cfg_db kind dep).unconditional = true) ∧
    ((∀ dk ∈ dep.dep_kinds.filter (fun dk => dep_kind_matches kind dk.kind),
        ∃ p, dk.target = some p ∧ oses_from_platform ctx.cfg_db p ≠ []) →
      dep.dep_kinds.filter (fun dk => dep_kind_matches kind dk.kind) ≠ [] →
      (scan_dep_kinds ctx.cfg_db kind dep).unconditional = false ∧
      (∀ os, os ∈ (scan_dep_kinds ctx.cfg_db kind dep).platforms ↔
        ∃ dk ∈ dep.dep_kinds.filter (fun dk => dep_kind_matches kind dk.kind),
          ∃ p, dk.target = some p ∧ os ∈ oses_from_platform ctx.cfg_db p) ∧
      (∃ cap, insert_dep st.rule label none
          (some (scan_dep_kinds ctx.cfg_db kind dep).platforms) =
            .ok (cap, []) ∧
        process_dep packages_map uwa kind ctx st dep =
          .ok ⟨cap, st.warnings, st.notes⟩)) ∧
    ((∀ dk ∈ dep.dep_kinds.filter (fun dk => dep_kind_matches kind dk.kind),
        ∃ p, dk.target = some p ∧ oses_from_platform ctx.cfg_db p = [] ∧
          platform_is_target_only p = true) →
      dep.dep_kinds.filter (fun dk => dep_kind_matches kind dk.kind) ≠ [] →
      process_dep packages_map uwa kind ctx st dep =
        .ok ⟨st.rule, st.warnings,
          st.notes ++ [unsupportedNote dep.name dep_package.name]⟩) ∧
    ((∃ dk ∈ dep.dep_kinds.filter (fun dk => dep_kind_matches kind dk.kind),
        ∃ p, dk.target = some p ∧ oses_from_platform ctx.cfg_db p = [] ∧
          platform_is_target_only p = false) →
      (scan_dep_kinds ctx.cfg_db kind dep).unconditional = true) ∧
    ((scan_dep_kinds ctx.cfg_db kind dep).unconditional = true →
      process_dep packages_map uwa kind ctx st dep =
        .ok ⟨{ st.rule with deps := btsInsert st.rule.deps label },
          st.warnings, st.notes⟩) := by
  refine ⟨?_, ?_, ?_, ?_, ?_⟩
  · rintro ⟨dk, hmem, ht⟩
    exact foldl_scan_unconditional_of_none ctx.cfg_db hmem ht
  · intro hall hne
    have hscan := foldl_scan_all_resolvable ctx.cfg_db hall
      (⟨false, [], false⟩ : DepScan)
    have huncond : (scan_dep_kinds ctx.cfg_db kind dep).unconditional =
        false := hscan.1
    refine ⟨huncond, ?_, ?_⟩
    · intro os
      have := foldl_scan_platforms_mem ctx.cfg_db
        (dep.dep_kinds.filter (fun dk => dep_kind_matches kind dk.kind))
        ⟨false, [], false⟩ os
      simpa [scan_dep_kinds] using this
    · obtain ⟨cap, hcap⟩ := insert_dep_unnamed_platforms_ok st.rule label
        (scan_dep_kinds ctx.cfg_db kind dep).platforms
      refine ⟨cap, hcap, ?_⟩
      have hplat_ne : (scan_dep_kinds ctx.cfg_db kind dep).platforms ≠ [] := by
        rcases List.exists_mem_of_ne_nil _ hne with ⟨dk₀, hdk₀⟩
        obtain ⟨p₀, ht₀, hoses₀⟩ := hall dk₀ hdk₀
        rcases List.exists_mem_of_ne_nil _ hoses₀ with ⟨os₀, hos₀⟩
        intro hnil
        have := (foldl_scan_platforms_mem ctx.cfg_db _ ⟨false, [], false⟩
          os₀).mpr (Or.inr ⟨dk₀, hdk₀, p₀, ht₀, hos₀⟩)
        rw [show (dep.dep_kinds.filter
          (fun dk => dep_kind_matches kind dk.kind)).foldl
            (scanStep ctx.cfg_db) ⟨false, [], false⟩ =
          scan_dep_kinds ctx.cfg_db kind dep from rfl, hnil] at this
        simp at this
      unfold process_dep
      rw [hpkg]
      simp only [huncond, Bool.not_false, Bool.true_and,
        List.isEmpty_iff, hplat_ne, if_false, hres]
      simp [huncond, hcap]
  · intro hall hne
    have hscan := foldl_scan_all_unsupported ctx.cfg_db hall hne
      (⟨false, [], false⟩ : DepScan)
    have hval : scan_dep_kinds ctx.cfg_db kind dep =
        ⟨false, [], true⟩ := by
      unfold scan_dep_kinds
      rw [hscan]
    unfold process_dep
    rw [hpkg, hval]
    simp
  · rintro ⟨dk, hmem, p, ht, hoses, hto⟩
    exact foldl_scan_unconditional_of_unmapped ctx.cfg_db hmem ht hoses hto
  · intro huncond
    unfold process_dep
    rw [hpkg]
    simp only [huncond, Bool.not_true, Bool.false_and, Bool.false_eq_true,
      if_false, hres]
    simp [huncond, insert_dep]

/-- The unevaluable (profile-dependent) predicate of the C1 counterexample. -/
def c1pred : Platform := Platform.cfg (CfgExpr.val (Cfg.flag "debug_assertions"))

/-- The third-party package of the C1 scenario. -/
def c1barPkg : Package :=
  ⟨"barid", "bar", "1.0.0", "/reg/bar/Cargo.toml", [], some "registry",
   "2021", none⟩

/-- The C1 scenario context. -/
def c1ctx : BuckalContext :=
  { root := ⟨"rootid", "demo", "0.1.0", "/ws/Cargo.toml", [], none, "2021",
      none⟩
    nodes_map := []
    packages_map := [("barid", c1barPkg)]
    checksums_map := []
    workspace_root := "/ws"
    no_merge := false
    separate := false
    repo_config := ⟨false, true, []⟩
    buck2_root := "/ws"
    cfg_db := fallback_cfgs_for_triple
    host_target := "x86_64-unknown-linux-gnu"
    host_cfgs := [] }

/-- The node of the C1 counterexample: a single dependency edge whose only
matching entry carries a predicate that resolves to no supported OS and is
not a pure target-identity predicate. -/
def c1node : Node :=
  ⟨"rootid", [], [⟨"bar", "barid", [⟨DependencyKind.normal, some c1pred⟩]⟩]⟩

/-- C1 counterexample: the claim says such an edge "is promoted to
unconditional with a diagnostic".  On the final revision of `set_deps`
(src/buckify/deps.rs) the promotion indeed happens, but *silently*: the
returned diagnostics are empty — no note and no warning is emitted (and no
platform-restriction mode exists to gate the promotion). -/
theorem c1_promotion_silent_counterexample :
    oses_from_platform c1ctx.cfg_db c1pred = [] ∧
    platform_is_target_only c1pred = false ∧
    set_deps ⟨[], [], [], [], [], []⟩ c1node c1ctx.packages_map
        CargoTargetKind.lib c1ctx =
      .ok ⟨⟨["//third-party/rust/crates/bar/1.0.0:bar"], [], [], [], [], []⟩,
        [], []⟩ := by
  refine ⟨by decide, rfl, rfl⟩

/-- The node of the C1 witness: one edge whose predicate `cfg(unix)`
resolves to the macOS and Linux host targets. -/
def c1wnode : Node :=
  ⟨"rootid", [],
   [⟨"bar", "barid",
     [⟨DependencyKind.normal,
       some (Platform.cfg (CfgExpr.val (Cfg.flag "unix")))⟩]⟩]⟩

/-- C1 witness: the classification theorem applied to the concrete
`cfg(unix)` edge — the scan leaves the edge conditional and `process_dep`
attaches it platform-scoped for macOS and Linux, with no diagnostics. -/
theorem c1_set_deps_edge_classification_witness :
    (scan_dep_kinds c1ctx.cfg_db CargoTargetKind.lib
      (⟨"bar", "barid",
        [⟨DependencyKind.normal,
          some (Platform.cfg (CfgExpr.val
            (Cfg.flag "unix")))⟩]⟩ : NodeDep)).unconditional = false ∧
    process_dep c1ctx.packages_map false CargoTargetKind.lib c1ctx
        ⟨⟨[], [], [], [], [], []⟩, [], []⟩
        ⟨"bar", "barid",
          [⟨DependencyKind.normal,
            some (Platform.cfg (CfgExpr.val (Cfg.flag "unix")))⟩]⟩ =
      .ok ⟨⟨[], [("macos", ["//third-party/rust/crates/bar/1.0.0:bar"]),
          ("linux", ["//third-party/rust/crates/bar/1.0.0:bar"])], [], [],
          [], []⟩, [], []⟩ := by
  have h := c1_set_deps_edge_classification c1ctx.packages_map false
    CargoTargetKind.lib c1ctx ⟨⟨[], [], [], [], [], []⟩, [], []⟩
    ⟨"bar", "barid",
      [⟨DependencyKind.normal,
        some (Platform.cfg (CfgExpr.val (Cfg.flag "unix")))⟩]⟩
    c1barPkg "//third-party/rust/crates/bar/1.0.0:bar" rfl rfl
  have hall := h.2.1 (by
    intro dk hdk
    simp only [List.mem_filter, List.mem_singleton] at hdk
    rw [hdk.1]
    exact ⟨Platform.cfg (CfgExpr.val (Cfg.flag "unix")), rfl, by decide⟩)
    (fun hnil => List.noConfusion hnil)
  obtain ⟨huncond, hmem, cap, hcap, hproc⟩ := hall
  refine ⟨huncond, ?_⟩
  rw [hproc]
  have hcap' : cap = ⟨[], [("macos", ["//third-party/rust/crates/bar/1.0.0:bar"]),
      ("linux", ["//third-party/rust/crates/bar/1.0.0:bar"])], [], [], [],
      []⟩ := by
    have : insert_dep (⟨[], [], [], [], [], []⟩ : DepCap)
        "//third-party/rust/crates/bar/1.0.0:bar" none
        (some (scan_dep_kinds c1ctx.cfg_db CargoTargetKind.lib
          ⟨"bar", "barid",
            [⟨DependencyKind.normal,
              some (Platform.cfg (CfgExpr.val (Cfg.flag "unix")))⟩]⟩).platforms) =
        .ok (⟨[], [("macos", ["//third-party/rust/crates/bar/1.0.0:bar"]),
          ("linux", ["//third-party/rust/crates/bar/1.0.0:bar"])], [], [],
          [], []⟩, []) := by rfl
    rw [this] at hcap
    have h2 : (⟨[], [("macos", ["//third-party/rust/crates/bar/1.0.0:bar"]),
        ("linux", ["//third-party/rust/crates/bar/1.0.0:bar"])], [], [], [],
        []⟩ : DepCap) = cap := by simpa using hcap
    exact h2.symm
  rw [hcap']

/-! ## Merge lemmas and claims C7 / C10 -/

theorem patch_set_self (s : List String) : patch_set s s = s := by
  unfold patch_set
  have h : s.filter (fun x => decide (x ∉ s)) = [] := by
    rw [List.filter_eq_nil_iff]
    intro a ha
    simp [ha]
  rw [h]
  rfl

theorem patch_map_self {V : Type} (m : List (String × V)) :
    patch_map m m = m := by
  have key : ∀ (l : List (String × V)),
      (∀ kv ∈ l, mapContains m kv.1 = true) →
      l.foldl (fun d kv => mapInsertIfAbsent d kv.1 kv.2) m = m := by
    intro l
    induction l with
    | nil => intro _; rfl
    | cons kv rest ih =>
        intro h
        have h1 : mapContains m kv.1 = true := h kv (List.mem_cons_self _ _)
        simp only [List.foldl_cons, mapInsertIfAbsent, h1, if_true]
        exact ih (fun kv' h' => h kv' (List.mem_cons_of_mem _ h'))
  refine key m ?_
  intro kv hkv
  exact (mapContains_iff m kv.1).mpr (List.mem_map.mpr ⟨kv, hkv, rfl⟩)

theorem foldl_mapInsert_combine_self {V : Type} (f : V → V → V) (d : V)
    (m l : List (String × V))
    (hl : ∀ kv ∈ l, mapLookup m kv.1 = some kv.2 ∧ f kv.2 kv.2 = kv.2) :
    l.foldl
      (fun acc kv => mapInsert acc kv.1 (f (mapGetOrDefault acc kv.1 d) kv.2))
      m = m := by
  induction l with
  | nil => rfl
  | cons kv rest ih =>
      obtain ⟨hlook, hcomb⟩ := hl kv (List.mem_cons_self _ _)
      have hget : mapGetOrDefault m kv.1 d = kv.2 := by
        simp [mapGetOrDefault, hlook]
      have hstep :
          mapInsert m kv.1 (f (mapGetOrDefault m kv.1 d) kv.2) = m := by
        rw [hget, hcomb]
        exact mapInsert_lookup_self hlook
      simp only [List.foldl_cons, hstep]
      exact ih (fun kv' h' => hl kv' (List.mem_cons_of_mem _ h'))

/-- Well-formedness of an embedded `BTreeMap`: its keys are distinct (true
of every map the sources build, since they only insert). -/
def MapWF {V : Type} (m : List (String × V)) : Prop :=
  (m.map Prod.fst).Nodup

theorem patch_deps_fields_self (pf : List String) (d : DepFields)
    (hw1 : MapWF d.os_deps) (hw2 : MapWF d.os_named_deps) :
    patch_deps_fields pf d d = d := by
  have hod : d.os_deps.foldl
      (fun m pd => mapInsert m pd.1 (patch_set (mapGetOrDefault m pd.1 []) pd.2))
      d.os_deps = d.os_deps :=
    foldl_mapInsert_combine_self _ _ _ _
      (fun kv hkv => ⟨mapLookup_of_mem hw1 hkv, patch_set_self _⟩)
  have hond : d.os_named_deps.foldl
      (fun m ap => mapInsert m ap.1 (patch_map (mapGetOrDefault m ap.1 []) ap.2))
      d.os_named_deps = d.os_named_deps :=
    foldl_mapInsert_combine_self _ _ _ _
      (fun kv hkv => ⟨mapLookup_of_mem hw2 hkv, patch_map_self _⟩)
  unfold patch_deps_fields
  by_cases h1 : pf.contains "deps" <;>
    by_cases h2 : pf.contains "os_deps" <;>
      by_cases h3 : pf.contains "named_deps" <;>
        by_cases h4 : pf.contains "os_named_deps" <;>
          simp [h1, h2, h3, h4, patch_set_self, patch_map_self, hod, hond]

theorem RustLibrary_patch_from_self (r : RustLibrary) (pf : List String)
    (hw1 : MapWF r.os_deps) (hw2 : MapWF r.os_named_deps) :
    r.patch_from r pf = r := by
  have hd := patch_deps_fields_self pf
    ⟨r.deps, r.os_deps, r.named_deps, r.os_named_deps⟩ hw1 hw2
  unfold RustLibrary.patch_from
  by_cases h1 : pf.contains "target_compatible_with" <;>
    by_cases h2 : pf.contains "compatible_with" <;>
      by_cases h3 : pf.contains "exec_compatible_with" <;>
        by_cases h4 : pf.contains "env" <;>
          by_cases h5 : pf.contains "features" <;>
            by_cases h6 : pf.contains "rustc_flags" <;>
              by_cases h7 : pf.contains "visibility" <;>
                simp [h1, h2, h3, h4, h5, h6, h7, patch_set_self,
                  patch_map_self, hd]

theorem RustBinary_patch_from_self (r : RustBinary) (pf : List String)
    (hw1 : MapWF r.os_deps) (hw2 : MapWF r.os_named_deps) :
    r.patch_from r pf = r := by
  have hd := patch_deps_fields_self pf
    ⟨r.deps, r.os_deps, r.named_deps, r.os_named_deps⟩ hw1 hw2
  unfold RustBinary.patch_from
  by_cases h1 : pf.contains "target_compatible_with" <;>
    by_cases h2 : pf.contains "compatible_with" <;>
      by_cases h3 : pf.contains "exec_compatible_with" <;>
        by_cases h4 : pf.contains "env" <;>
          by_cases h5 : pf.contains "features" <;>
            by_cases h6 : pf.contains "rustc_flags" <;>
              by_cases h7 : pf.contains "visibility" <;>
                simp [h1, h2, h3, h4, h5, h6, h7, patch_set_self,
                  patch_map_self, hd]

theorem RustTest_patch_from_self (r : RustTest) (pf : List String)
    (hw1 : MapWF r.os_deps) (hw2 : MapWF r.os_named_deps) :
    r.patch_from r pf = r := by
  have hd := patch_deps_fields_self pf
    ⟨r.deps, r.os_deps, r.named_deps, r.os_named_deps⟩ hw1 hw2
  unfold RustTest.patch_from
  by_cases h1 : pf.contains "target_compatible_with" <;>
    by_cases h2 : pf.contains "compatible_with" <;>
      by_cases h3 : pf.contains "exec_compatible_with" <;>
        by_cases h4 : pf.contains "env" <;>
          by_cases h5 : pf.contains "features" <;>
            by_cases h6 : pf.contains "rustc_flags" <;>
              by_cases h7 : pf.contains "visibility" <;>
                simp [h1, h2, h3, h4, h5, h6, h7, patch_set_self,
                  patch_map_self, hd]

theorem BuildscriptRun_patch_from_self (r : BuildscriptRun)
    (pf : List String) : r.patch_from r pf = r := by
  unfold BuildscriptRun.patch_from
  by_cases h1 : pf.contains "env" <;>
    by_cases h2 : pf.contains "features" <;>
      by_cases h3 : pf.contains "visibility" <;>
        simp [h1, h2, h3, patch_set_self, patch_map_self]

theorem foldl_kindInsert_lookup (l : List Rule) (m : List (String × Rule))
    (k : String) :
    mapLookup (l.foldl (fun m r => mapInsert m (ruleKindName r) r) m) k =
      match (l.filter (fun r => ruleKindName r = k)).getLast? with
      | some r => some r
      | none => mapLookup m k := by
  induction l generalizing m with
  | nil => rfl
  | cons r l ih =>
      rw [List.foldl_cons, ih]
      by_cases hk : ruleKindName r = k
      · rcases hf : l.filter (fun r => decide (ruleKindName r = k)) with
          _ | ⟨a, b⟩
        · rw [List.filter_cons, hf]
          simp [mapLookup_mapInsert, hk]
        · rw [List.filter_cons, hf]
          have hif : (if decide (ruleKindName r = k) = true then
              r :: a :: b else a :: b) = r :: a :: b := by simp [hk]
          rw [hif, List.getLast?_cons_cons]
          rcases hlast : (a :: b).getLast? with _ | x
          · exfalso
            have h2 := List.getLast?_isSome (l := a :: b)
            rw [hlast] at h2
            simp at h2
          · rfl
      · rcases hf : l.filter (fun r => decide (ruleKindName r = k)) with
          _ | ⟨a, b⟩
        · rw [List.filter_cons, hf]
          simp [mapLookup_mapInsert, hk]
        · rw [List.filter_cons, hf]
          have hif : (if decide (ruleKindName r = k) = true then
              r :: a :: b else a :: b) = a :: b := by simp [hk]
          rw [hif]
          rcases hlast : (a :: b).getLast? with _ | x
          · exfalso
            have h2 := List.getLast?_isSome (l := a :: b)
            rw [hlast] at h2
            simp at h2
          · rfl

theorem parse_rendered_lookup (rules : List Rule) (k : String)
    (hk : k ≠ "load") :
    mapLookup (parse_rendered rules) k =
      (rules.filter (fun r => ruleKindName r = k)).getLast? := by
  unfold parse_rendered
  rw [foldl_kindInsert_lookup]
  have hfilter : (rules.filter (fun r => decide (ruleKindName r ≠ "load"))).filter
      (fun r => decide (ruleKindName r = k)) =
      rules.filter (fun r => decide (ruleKindName r = k)) := by
    rw [List.filter_filter]
    refine List.filter_congr ?_
    intro r hr
    by_cases h : ruleKindName r = k
    · simp [h, hk]
    · simp [h]
  rw [hfilter]
  rcases hx : (rules.filter (fun r => decide (ruleKindName r = k))).getLast?
    with _ | r
  · rfl
  · rfl

theorem filter_kind_singleton {rules : List Rule} {r : Rule}
    (hk : (rules.map ruleKindName).Nodup) (hr : r ∈ rules) :
    rules.filter (fun r' => ruleKindName r' = ruleKindName r) = [r] := by
  induction rules with
  | nil => simp at hr
  | cons x l ih =>
      rw [List.map_cons, List.nodup_cons] at hk
      rcases List.mem_cons.mp hr with rfl | hmem
      · have hnil : l.filter
            (fun r' => decide (ruleKindName r' = ruleKindName r)) = [] := by
          rw [List.filter_eq_nil_iff]
          intro a ha
          simp only [decide_eq_true_eq]
          intro he
          exact hk.1 (by rw [← he]; exact List.mem_map.mpr ⟨a, ha, rfl⟩)
        rw [List.filter_cons]
        simp [hnil]
      · have hne : ruleKindName x ≠ ruleKindName r := by
          intro he
          exact hk.1 (he ▸ List.mem_map.mpr ⟨r, hmem, rfl⟩)
        rw [List.filter_cons]
        simp [hne, ih hk.2 hmem]

/-- Well-formedness of a rule's embedded maps (true of every rule the
emitter or parser builds: their maps are only ever grown by insertion). -/
def RuleMapsWF : Rule → Prop
  | .rustLibrary r => MapWF r.os_deps ∧ MapWF r.os_named_deps
  | .rustBinary r => MapWF r.os_deps ∧ MapWF r.os_named_deps
  | .rustTest r => MapWF r.os_deps ∧ MapWF r.os_named_deps
  | _ => True

/-- C7 (amended): merging a rule set with its own rendered output via
`patch_buck_rules` is a no-op *when the rule set contains at most one rule
of each kind* (and its maps are well-formed), for any configured set of
mergeable field names.  When the set contains several rules of one kind
the no-op property fails (see the counterexample): `parse_buck_file` keys
its result by rule kind, so only the last rule of each kind survives
re-parsing and is merged into every rule of that kind. -/
theorem c7_merge_rendered_self (rules : List Rule) (fields : List String)
    (hk : (rules.map ruleKindName).Nodup)
    (hw : ∀ r ∈ rules, RuleMapsWF r) :
    patch_buck_rules (parse_rendered rules) rules fields = rules := by
  unfold patch_buck_rules
  have hpoint : ∀ r ∈ rules, patchRule (parse_rendered rules) fields r = r := by
    intro r hr
    have hlookup : ruleKindName r ≠ "load" →
        mapLookup (parse_rendered rules) (ruleKindName r) = some r := by
      intro hne
      rw [parse_rendered_lookup rules _ hne, filter_kind_singleton hk hr]
      rfl
    rcases r with l | ha | fg | cm | rl | rb | rt | br
    · rfl
    · rfl
    · rfl
    · rfl
    · have hs := hlookup (by simp [ruleKindName])
      obtain ⟨hw1, hw2⟩ := hw _ hr
      unfold patchRule
      rw [show ruleKindName (Rule.rustLibrary rl) = "rust_library" from rfl]
        at hs
      rw [hs]
      show Rule.rustLibrary (rl.patch_from rl fields) = Rule.rustLibrary rl
      rw [RustLibrary_patch_from_self rl fields hw1 hw2]
    · have hs := hlookup (by simp [ruleKindName])
      obtain ⟨hw1, hw2⟩ := hw _ hr
      unfold patchRule
      rw [show ruleKindName (Rule.rustBinary rb) = "rust_binary" from rfl]
        at hs
      rw [hs]
      show Rule.rustBinary (rb.patch_from rb fields) = Rule.rustBinary rb
      rw [RustBinary_patch_from_self rb fields hw1 hw2]
    · have hs := hlookup (by simp [ruleKindName])
      obtain ⟨hw1, hw2⟩ := hw _ hr
      unfold patchRule
      rw [show ruleKindName (Rule.rustTest rt) = "rust_test" from rfl] at hs
      rw [hs]
      show Rule.rustTest (rt.patch_from rt fields) = Rule.rustTest rt
      rw [RustTest_patch_from_self rt fields hw1 hw2]
    · have hs := hlookup (by simp [ruleKindName])
      unfold patchRule
      rw [show ruleKindName (Rule.buildscriptRun br) = "buildscript_run" from
        rfl] at hs
      rw [hs]
      show Rule.buildscriptRun (br.patch_from br fields) =
        Rule.buildscriptRun br
      rw [BuildscriptRun_patch_from_self br fields]
  calc rules.map (patchRule (parse_rendered rules) fields)
      = rules.map id := List.map_congr_left hpoint
    _ = rules := List.map_id rules

/-- The concrete library rule of the C7 witness. -/
def c7wlib : RustLibrary :=
  ⟨"m", [":m-vendor"], "m", "src/lib.rs", "2021", [], [], [], [], [], [],
   none, [], [], [], ["PUBLIC"], []⟩

/-- C7 witness: the merge no-op theorem at a concrete two-rule set. -/
theorem c7_merge_rendered_self_witness :
    patch_buck_rules
      (parse_rendered [Rule.cargoManifest ⟨"m-manifest", ":m-vendor"⟩,
        Rule.rustLibrary c7wlib])
      [Rule.cargoManifest ⟨"m-manifest", ":m-vendor"⟩,
        Rule.rustLibrary c7wlib] ["deps", "env", "rustc_flags"] =
      [Rule.cargoManifest ⟨"m-manifest", ":m-vendor"⟩,
        Rule.rustLibrary c7wlib] := by
  refine c7_merge_rendered_self _ _ (by decide) ?_
  intro r hr
  simp only [List.mem_cons, List.mem_singleton] at hr
  rcases hr with rfl | rfl | h
  · trivial
  · exact ⟨by simp [MapWF, c7wlib], by simp [MapWF, c7wlib]⟩
  · simp at h

/-- The root package of the C7 counterexample: a binary sharing the
library's name plus a second binary, so emission produces two
`rust_binary` rules with different dependency sets. -/
def c7pkg : Package :=
  ⟨"path+file:///ws#mylib@0.1.0", "mylib", "0.1.0", "/ws/Cargo.toml",
   [⟨[TargetKind.bin], "other", "/ws/src/bin/other.rs", false⟩,
    ⟨[TargetKind.bin], "mylib", "/ws/src/main.rs", false⟩,
    ⟨[TargetKind.lib], "mylib", "/ws/src/lib.rs", true⟩],
   none, "2021", none⟩

/-- The root node of the C7 counterexample. -/
def c7node : Node := ⟨"path+file:///ws#mylib@0.1.0", [], []⟩

/-- The context of the C7 counterexample. -/
def c7ctx : BuckalContext :=
  { root := c7pkg
    nodes_map := [(c7pkg.id, c7node)]
    packages_map := [(c7pkg.id, c7pkg)]
    checksums_map := []
    workspace_root := "/ws"
    no_merge := false
    separate := false
    repo_config := ⟨false, true, []⟩
    buck2_root := "/ws"
    cfg_db := fallback_cfgs_for_triple
    host_target := "x86_64-unknown-linux-gnu"
    host_cfgs := [] }

/-- C7 counterexample: an emission-produced rule set for which re-parsing
the rendered output and merging it back is *not* a no-op.  The root node
emits two `rust_binary` rules — `other` (no deps) and `mylib` (with the
implicit `:libmylib` self-dependency); re-parsing keeps only the last
`rust_binary`, and merging adds `:libmylib` to `other`'s deps. -/
theorem c7_merge_not_noop_counterexample :
    (buckify_root_node c7node c7ctx).isSome = true ∧
    (buckify_root_node c7node c7ctx).map
        (fun rules =>
          patch_buck_rules (parse_rendered rules) rules ["deps"]) ≠
      buckify_root_node c7node c7ctx := by
  refine ⟨rfl, by decide⟩

/-- C10: `parse_buck_file` keys its result map by the rule-kind function
name, so at most one rule per kind survives — the last one parsed — and
`patch_buck_rules` merges that retained rule's fields into every freshly
generated rule of that kind (shown for `rust_binary`; the other patchable
kinds are symmetric). -/
theorem c10_parse_last_wins (rules : List Rule) (k : String)
    (ex : List (String × Rule)) (fields : List String) :
    (k ≠ "load" →
      mapLookup (parse_rendered rules) k =
        (rules.filter (fun r => ruleKindName r = k)).getLast?) ∧
    (∀ (i : Nat) (b : RustBinary), rules[i]? = some (Rule.rustBinary b) →
      (patch_buck_rules ex rules fields)[i]? =
        some (match mapLookup ex "rust_binary" with
          | some (Rule.rustBinary eb) =>
              Rule.rustBinary (b.patch_from eb fields)
          | _ => Rule.rustBinary b)) := by
  constructor
  · exact fun hkl => parse_rendered_lookup rules k hkl
  · intro i b hi
    unfold patch_buck_rules
    rw [List.getElem?_map, hi]
    rcases hex : mapLookup ex "rust_binary" with _ | er
    · simp [patchRule, hex]
    · rcases er with l | ha | fg | cm | rl | rb | rt | br <;>
        simp [patchRule, hex]

/-- The rust-binary family of the C10 witness. -/
def c10bin (n : String) (ds : List String) : RustBinary :=
  ⟨n, [], n, "", "2021", [], [], [], [], [], [], [], [], [], [], ds⟩

/-- C10 witness: with two `rust_binary` rules in one file, only the last
survives parsing, and merging patches the first binary from it. -/
theorem c10_parse_last_wins_witness :
    mapLookup (parse_rendered [Rule.rustBinary (c10bin "a" []),
        Rule.rustBinary (c10bin "b" [":x"])]) "rust_binary" =
      some (Rule.rustBinary (c10bin "b" [":x"])) ∧
    (patch_buck_rules
        (parse_rendered [Rule.rustBinary (c10bin "a" []),
          Rule.rustBinary (c10bin "b" [":x"])])
        [Rule.rustBinary (c10bin "a" []), Rule.rustBinary (c10bin "b" [":x"])]
        ["deps"])[0]? =
      some (Rule.rustBinary ((c10bin "a" []).patch_from (c10bin "b" [":x"])
        ["deps"])) := by
  constructor
  · have h := (c10_parse_last_wins [Rule.rustBinary (c10bin "a" []),
      Rule.rustBinary (c10bin "b" [":x"])] "rust_binary" [] []).1
      (by decide)
    rw [h]
    rfl
  · have h := (c10_parse_last_wins [Rule.rustBinary (c10bin "a" []),
      Rule.rustBinary (c10bin "b" [":x"])] "rust_binary"
      (parse_rendered [Rule.rustBinary (c10bin "a" []),
        Rule.rustBinary (c10bin "b" [":x"])]) ["deps"]).2 0 (c10bin "a" [])
      rfl
    rw [h]
    rfl

/-! ## C9: structure of `gen_buck_content` output -/

/-- The presence scan accumulates, per flag, whether a rule of the
corresponding kind occurs in the scanned prefix. -/
theorem foldl_loadFlagsStep_spec (rules : List Rule) (f : LoadFlags) :
    rules.foldl loadFlagsStep f =
      ⟨f.has_cargo_manifest
          || rules.any (fun r => decide (ruleKindName r = "cargo_manifest")),
        f.has_rust_library
          || rules.any (fun r => decide (ruleKindName r = "rust_library")),
        f.has_rust_binary
          || rules.any (fun r => decide (ruleKindName r = "rust_binary")),
        f.has_rust_test
          || rules.any (fun r => decide (ruleKindName r = "rust_test")),
        f.has_buildscript_run
          || rules.any (fun r => decide (ruleKindName r = "buildscript_run"))⟩ := by
  induction rules generalizing f with
  | nil => simp
  | cons r rest ih =>
    rw [List.foldl_cons, ih]
    cases r <;> simp [loadFlagsStep, ruleKindName, Bool.or_assoc]

/-- Each flag of `loadFlags` holds exactly when a rule of that kind is
present. -/
theorem loadFlags_spec (rules : List Rule) :
    ((loadFlags rules).has_cargo_manifest = true ↔
      ∃ r ∈ rules, ruleKindName r = "cargo_manifest") ∧
    ((loadFlags rules).has_rust_library = true ↔
      ∃ r ∈ rules, ruleKindName r = "rust_library") ∧
    ((loadFlags rules).has_rust_binary = true ↔
      ∃ r ∈ rules, ruleKindName r = "rust_binary") ∧
    ((loadFlags rules).has_rust_test = true ↔
      ∃ r ∈ rules, ruleKindName r = "rust_test") ∧
    ((loadFlags rules).has_buildscript_run = true ↔
      ∃ r ∈ rules, ruleKindName r = "buildscript_run") := by
  unfold loadFlags
  rw [foldl_loadFlagsStep_spec]
  simp [List.any_eq_true]

/-- `btsInsert` preserves sortedness. -/
theorem btsInsert_sorted (s : List String) (x : String)
    (h : List.Sorted (· ≤ ·) s) : List.Sorted (· ≤ ·) (btsInsert s x) := by
  unfold btsInsert
  by_cases hx : x ∈ s
  · rw [if_pos hx]
    exact h
  · rw [if_neg hx]
    exact List.Sorted.orderedInsert x s h

/-- The wrapper-load item set is sorted ascending (it is a `BTreeSet`). -/
theorem wrapperItems_sorted (rules : List Rule) :
    List.Sorted (· ≤ ·) (wrapperItems rules) := by
  unfold wrapperItems
  by_cases h1 : (loadFlags rules).has_rust_library <;>
    by_cases h2 : (loadFlags rules).has_rust_binary <;>
    by_cases h3 : (loadFlags rules).has_rust_test <;>
    by_cases h4 : (loadFlags rules).has_buildscript_run <;>
    simp only [h1, h2, h3, h4, if_true, if_false, Bool.false_eq_true,
      if_neg, ite_true, ite_false] <;>
    (repeat' apply btsInsert_sorted) <;>
    exact List.sorted_nil

/-- An item is in the wrapper-load set exactly when it names a rust rule
kind present in the rule set. -/
theorem wrapperItems_mem (rules : List Rule) (item : String) :
    item ∈ wrapperItems rules ↔
      ((item = "rust_library" ∧ (loadFlags rules).has_rust_library = true) ∨
       (item = "rust_binary" ∧ (loadFlags rules).has_rust_binary = true) ∨
       (item = "rust_test" ∧ (loadFlags rules).has_rust_test = true) ∨
       (item = "buildscript_run" ∧
         (loadFlags rules).has_buildscript_run = true)) := by
  unfold wrapperItems
  by_cases h1 : (loadFlags rules).has_rust_library <;>
    by_cases h2 : (loadFlags rules).has_rust_binary <;>
    by_cases h3 : (loadFlags rules).has_rust_test <;>
    by_cases h4 : (loadFlags rules).has_buildscript_run <;>
    simp [h1, h2, h3, h4, mem_btsInsert] <;>
    tauto

/-- **C9.** For every rule set, the rendered text is the generation banner,
then the load statements, then the serialized rules joined by blank lines;
the manifest load appears exactly when a `cargo_manifest` rule is present;
the wrapper load appears exactly when its item set is non-empty, and that
set contains exactly the rust rule kinds present, in ascending (sorted)
order.  Rendering is a pure function, hence byte-identical across runs. -/
theorem c9_gen_buck_content_structure (ser : Rule → String)
    (rules : List Rule) :
    gen_buck_content ser rules =
      buckBanner ++
        (String.join ((genLoads rules).map (fun l => ser (Rule.load l))) ++
          ("\n" ++ joinSep "\n" (rules.map ser))) ∧
    (Load.mk "@buckal//:cargo_manifest.bzl" ["cargo_manifest"] ∈
        genLoads rules ↔
      ∃ r ∈ rules, ruleKindName r = "cargo_manifest") ∧
    (Load.mk "@buckal//:wrapper.bzl" (wrapperItems rules) ∈ genLoads rules ↔
      wrapperItems rules ≠ []) ∧
    (∀ item, item ∈ wrapperItems rules ↔
      ((item = "rust_library" ∧ ∃ r ∈ rules, ruleKindName r = "rust_library") ∨
       (item = "rust_binary" ∧ ∃ r ∈ rules, ruleKindName r = "rust_binary") ∨
       (item = "rust_test" ∧ ∃ r ∈ rules, ruleKindName r = "rust_test") ∨
       (item = "buildscript_run" ∧
         ∃ r ∈ rules, ruleKindName r = "buildscript_run"))) ∧
    List.Sorted (· ≤ ·) (wrapperItems rules) := by
  obtain ⟨hcm, hlib, hbin, htest, hrun⟩ := loadFlags_spec rules
  refine ⟨by simp [gen_buck_content, String.append_assoc], ?_, ?_, ?_, wrapperItems_sorted rules⟩
  · rw [← hcm]
    unfold genLoads
    by_cases h : (loadFlags rules).has_cargo_manifest <;>
      by_cases hw : (wrapperItems rules).isEmpty <;>
      simp [h, hw]
  · unfold genLoads
    by_cases hw : wrapperItems rules = []
    · by_cases h : (loadFlags rules).has_cargo_manifest <;>
        simp [h, hw]
    · have hw' : (wrapperItems rules).isEmpty = false := by
        simpa [List.isEmpty_iff] using hw
      by_cases h : (loadFlags rules).has_cargo_manifest <;>
        simp [h, hw', hw]
  · intro item
    rw [wrapperItems_mem, hlib, hbin, htest, hrun]

/-! ## C6: the five-rule set of a buildscript node -/

/-- `Option`-monad unfolding of `List.foldlM` on a cons cell. -/
theorem foldlM_option_cons {α β : Type} (f : β → α → Option β) (b : β)
    (a : α) (l : List α) :
    List.foldlM f b (a :: l) = (f b a).bind (fun c => List.foldlM f c l) :=
  rfl

/-- One links-loop step of `emit_buildscript_run` never changes the rule
name. -/
theorem buildscriptRunDepStep_name (pm : List (String × Package))
    (ctx : BuckalContext) (br : BuildscriptRun) (dep : NodeDep)
    (br1 : BuildscriptRun)
    (h : buildscriptRunDepStep pm ctx br dep = some br1) :
    br1.name = br.name := by
  unfold buildscriptRunDepStep at h
  split at h
  · cases h
    rfl
  · split at h
    · split at h
      · cases h
        rfl
      · cases h
    · cases h
      rfl

/-- The whole links loop of `emit_buildscript_run` never changes the rule
name. -/
theorem foldlM_buildscriptRun_name (pm : List (String × Package))
    (ctx : BuckalContext) (deps : List NodeDep) (br br' : BuildscriptRun)
    (h : List.foldlM (buildscriptRunDepStep pm ctx) br deps = some br') :
    br'.name = br.name := by
  induction deps generalizing br with
  | nil =>
    have hb : br = br' := by simpa using h
    rw [← hb]
  | cons d ds ih =>
    rw [foldlM_option_cons] at h
    cases hstep : buildscriptRunDepStep pm ctx br d with
    | none =>
      rw [hstep] at h
      cases h
    | some br1 =>
      rw [hstep] at h
      exact (ih br1 h).trans (buildscriptRunDepStep_name pm ctx br d br1 hstep)

/-- `emit_buildscript_run` names its rule
`<package>-<build-name>-run`. -/
theorem emit_buildscript_run_name (package : Package) (node : Node)
    (pm : List (String × Package)) (build_target : Target)
    (ctx : BuckalContext) (br : BuildscriptRun)
    (h : emit_buildscript_run package node pm build_target ctx = some br) :
    br.name = package.name ++ "-" ++ get_build_name build_target.name ++
      "-run" := by
  unfold emit_buildscript_run at h
  exact foldlM_buildscriptRun_name pm ctx node.deps _ br h

/-- **C6.** For a third-party node whose package has a library target and a
custom-build target, when every emission step succeeds `buckify_dep_node`
produces exactly five rules in order — archive fetch, manifest meta,
library, build-script binary, buildscript run — and the library rule is
patched so that its `rustc_flags` contain the
`@$(location :<pkg>-<build>-run[rustc_flags])` reference and its `env`
maps `OUT_DIR` to `$(location :<pkg>-<build>-run[out_dir])`, where
`<pkg>-<build>-run` is exactly the buildscript-run rule's name. -/
theorem c6_buildscript_node_rules
    (node : Node) (ctx : BuckalContext) (package : Package)
    (manifest_dir : String) (lib_target build_target : Target)
    (ha : HttpArchive) (rl : RustLibrary) (bb : RustBinary)
    (br : BuildscriptRun)
    (hpkg : mapLookup ctx.packages_map node.id = some package)
    (hdir : pathParent package.manifest_path = some manifest_dir)
    (hlib : package.targets.find? isLibKind = some lib_target)
    (harch : emit_http_archive package ctx = some ha)
    (hrl : emit_rust_library package node ctx.packages_map lib_target
      manifest_dir package.name ctx = some rl)
    (hbuild : package.targets.find?
      (fun t => t.kind.contains TargetKind.customBuild) = some build_target)
    (hbb : emit_buildscript_build build_target package node ctx.packages_map
      manifest_dir ctx = some bb)
    (hbr : emit_buildscript_run package node ctx.packages_map build_target
      ctx = some br) :
    ∃ rl' : RustLibrary,
      buckify_dep_node node ctx = some
        [Rule.httpArchive ha,
          Rule.cargoManifest (emit_cargo_manifest package),
          Rule.rustLibrary rl', Rule.rustBinary bb,
          Rule.buildscriptRun br] ∧
      br.name = package.name ++ "-" ++ get_build_name build_target.name ++
        "-run" ∧
      ("@$(location :" ++ package.name ++ "-" ++
          get_build_name build_target.name ++ "-run[rustc_flags])") ∈
        rl'.rustc_flags ∧
      mapLookup rl'.env "OUT_DIR" =
        some ("$(location :" ++ package.name ++ "-" ++
          get_build_name build_target.name ++ "-run[out_dir])") := by
  refine ⟨rl.withCap (patch_with_buildscript rl.cap build_target package),
    ?_, emit_buildscript_run_name package node ctx.packages_map build_target
      ctx br hbr, ?_, ?_⟩
  · simp only [buckify_dep_node, hpkg, hdir, hlib, harch, hrl, hbuild, hbb,
      hbr, Option.bind_eq_bind, Option.some_bind, List.map_cons, List.map_nil,
      Rule.patchRustRule, List.cons_append, List.nil_append, Option.pure_def]
  · simp [RustLibrary.withCap, patch_with_buildscript, mem_btsInsert]
  · simp [RustLibrary.withCap, patch_with_buildscript, mapLookup_mapInsert]

/-- A concrete third-party library target for the C6 scenario. -/
def c6libT : Target :=
  { kind := [TargetKind.lib]
    name := "foo"
    src_path := "root/vendor/foo/src/lib.rs"
    test := true }

/-- A concrete custom-build target for the C6 scenario. -/
def c6buildT : Target :=
  { kind := [TargetKind.customBuild]
    name := "build-script-build"
    src_path := "root/vendor/foo/build.rs"
    test := false }

/-- A concrete third-party package `foo` v1.2.0 with a build script. -/
def c6pkg : Package :=
  { id := "foo-id"
    name := "foo"
    version := "1.2.0"
    manifest_path := "root/vendor/foo/Cargo.toml"
    targets := [c6libT, c6buildT]
    source := some "registry"
    edition := "2021"
    links := none }

/-- The resolved node of `c6pkg`, with no dependency edges. -/
def c6node : Node :=
  { id := "foo-id"
    features := ["default"]
    deps := [] }

/-- A context containing exactly the C6 node and its checksum. -/
def c6ctx : BuckalContext :=
  { root := c6pkg
    nodes_map := [("foo-id", c6node)]
    packages_map := [("foo-id", c6pkg)]
    checksums_map := [("foo-1.2.0", "deadbeef")]
    workspace_root := "root"
    no_merge := false
    separate := false
    repo_config := ⟨false, true, []⟩
    buck2_root := "root"
    cfg_db := fun _ => none
    host_target := "x86_64-unknown-linux-gnu"
    host_cfgs := [] }

/-- The archive rule emitted for the C6 scenario. -/
def c6ha : HttpArchive :=
  match emit_http_archive c6pkg c6ctx with
  | some h => h
  | none => { name := ""
              urls := []
              sha256 := ""
              typ := ""
              stripPfx := ""
              out := none }

/-- The unpatched library rule emitted for the C6 scenario. -/
def c6rl : RustLibrary :=
  match emit_rust_library c6pkg c6node c6ctx.packages_map c6libT
      "root/vendor/foo" "foo" c6ctx with
  | some r => r
  | none => { name := ""
              srcs := []
              crate_name := ""
              crate_root := ""
              edition := ""
              target_compatible_with := []
              compatible_with := []
              exec_compatible_with := []
              env := []
              features := []
              rustc_flags := []
              proc_macro := none
              named_deps := []
              os_named_deps := []
              os_deps := []
              visibility := []
              deps := [] }

/-- The build-script binary rule emitted for the C6 scenario. -/
def c6bb : RustBinary :=
  match emit_buildscript_build c6buildT c6pkg c6node c6ctx.packages_map
      "root/vendor/foo" c6ctx with
  | some r => r
  | none => { name := ""
              srcs := []
              crate_name := ""
              crate_root := ""
              edition := ""
              target_compatible_with := []
              compatible_with := []
              exec_compatible_with := []
              env := []
              features := []
              rustc_flags := []
              named_deps := []
              os_named_deps := []
              os_deps := []
              visibility := []
              deps := [] }

/-- The buildscript-run rule emitted for the C6 scenario. -/
def c6br : BuildscriptRun :=
  match emit_buildscript_run c6pkg c6node c6ctx.packages_map c6buildT c6ctx
      with
  | some r => r
  | none => { name := ""
              package_name := ""
              buildscript_rule := ""
              env := []
              env_srcs := []
              features := []
              version := ""
              manifest_dir := ""
              visibility := [] }

/-- Witness for C6: every hypothesis of the five-rule theorem holds on the
concrete `foo` v1.2.0 buildscript scenario. -/
theorem c6_buildscript_node_rules_witness :
    ∃ rl' : RustLibrary,
      buckify_dep_node c6node c6ctx = some
        [Rule.httpArchive c6ha,
          Rule.cargoManifest (emit_cargo_manifest c6pkg),
          Rule.rustLibrary rl', Rule.rustBinary c6bb,
          Rule.buildscriptRun c6br] ∧
      c6br.name = c6pkg.name ++ "-" ++ get_build_name c6buildT.name ++
        "-run" ∧
      ("@$(location :" ++ c6pkg.name ++ "-" ++
          get_build_name c6buildT.name ++ "-run[rustc_flags])") ∈
        rl'.rustc_flags ∧
      mapLookup rl'.env "OUT_DIR" =
        some ("$(location :" ++ c6pkg.name ++ "-" ++
          get_build_name c6buildT.name ++ "-run[out_dir])") :=
  c6_buildscript_node_rules c6node c6ctx c6pkg "root/vendor/foo" c6libT
    c6buildT c6ha c6rl c6bb c6br rfl rfl rfl rfl rfl rfl rfl rfl

/-! ## C8: the AST patcher is total and splices exactly once per call -/

/-- Reference description of the splice result for ascending insertion
positions: each original segment is kept and one clause (built from the
original text, whose prefix below the position the descending processing
order preserves) is inserted at each position. -/
def splicedAsc (content : String) : List Nat → List Char
  | [] => content.data
  | p :: ps =>
      content.data.take p ++ (build_insert content p).data ++
        (splicedAsc content ps).drop p

/-- `needs_leading_comma` only reads the text before the insertion
point. -/
theorem needs_leading_comma_congr (a b : String) (p : Nat)
    (h : a.data.take p = b.data.take p) :
    needs_leading_comma a p = needs_leading_comma b p := by
  unfold needs_leading_comma
  rw [h]

/-- `build_insert` only reads the text before the insertion point. -/
theorem build_insert_congr (a b : String) (p : Nat)
    (h : a.data.take p = b.data.take p) :
    build_insert a p = build_insert b p := by
  unfold build_insert
  rw [needs_leading_comma_congr a b p h]

/-- Splicing at positions at or above `p` preserves the first `p`
characters. -/
theorem splicedAsc_take (content : String) (p : Nat) (ps : List Nat)
    (hall : ∀ q ∈ ps, p ≤ q)
    (hrange : ∀ q ∈ ps, q < content.data.length) :
    (splicedAsc content ps).take p = content.data.take p := by
  induction ps with
  | nil => rfl
  | cons q ps ih =>
    have hpq : p ≤ q := hall q (List.mem_cons_self q ps)
    have hq : q < content.data.length := hrange q (List.mem_cons_self q ps)
    have hlen : (content.data.take q).length = q := by
      rw [List.length_take]
      omega
    have h0 : p -
        (List.take q content.data ++ (build_insert content q).data).length =
          0 := by
      rw [List.length_append, hlen]
      omega
    have h1 : p - (List.take q content.data).length = 0 := by
      rw [hlen]
      omega
    rw [splicedAsc, List.take_append_eq_append_take, h0, List.take_zero,
      List.append_nil, List.take_append_eq_append_take, h1, List.take_zero,
      List.append_nil, List.take_take]
    congr 1
    omega

/-- Splicing never shortens the text. -/
theorem splicedAsc_length (content : String) (ps : List Nat)
    (hrange : ∀ q ∈ ps, q < content.data.length) :
    content.data.length ≤ (splicedAsc content ps).length := by
  induction ps with
  | nil => exact Nat.le_refl _
  | cons q ps ih =>
    have hq : q < content.data.length := hrange q (List.mem_cons_self q ps)
    have ihh := ih (fun r hr => hrange r (List.mem_cons_of_mem q hr))
    rw [splicedAsc, List.length_append, List.length_append,
      List.length_take, List.length_drop]
    omega

/-- The descending splice loop of the patcher realizes the ascending
reference interleaving when the positions are strictly ascending and
within the text. -/
theorem foldl_splice_spec (content : String) (ps : List Nat)
    (hsorted : List.Sorted (· < ·) ps)
    (hrange : ∀ q ∈ ps, q < content.data.length) :
    (ps.reverse.foldl
      (fun out pos => if out.data.length ≤ pos then out
        else strInsert out pos (build_insert out pos)) content).data =
      splicedAsc content ps := by
  induction ps with
  | nil => rfl
  | cons p ps ih =>
    rw [List.sorted_cons] at hsorted
    obtain ⟨hall, hsorted'⟩ := hsorted
    have hrange' : ∀ q ∈ ps, q < content.data.length :=
      fun r hr => hrange r (List.mem_cons_of_mem p hr)
    have hp : p < content.data.length := hrange p (List.mem_cons_self p ps)
    rw [List.reverse_cons, List.foldl_append, List.foldl_cons,
      List.foldl_nil]
    set m : String := ps.reverse.foldl
      (fun out pos => if out.data.length ≤ pos then out
        else strInsert out pos (build_insert out pos)) content with hm
    have hmid : m.data = splicedAsc content ps := ih hsorted' hrange'
    have hlen : content.data.length ≤ m.data.length := by
      rw [hmid]
      exact splicedAsc_length content ps hrange'
    rw [if_neg (by omega : ¬ (m.data.length ≤ p))]
    have htake : m.data.take p = content.data.take p := by
      rw [hmid]
      exact splicedAsc_take content p ps
        (fun q hq => Nat.le_of_lt (hall q hq)) hrange'
    have hbi : build_insert m p = build_insert content p :=
      build_insert_congr m content p htake
    have hdata : (strInsert m p (build_insert m p)).data =
        m.data.take p ++ (build_insert m p).data ++ m.data.drop p := rfl
    rw [hdata, htake, hbi, hmid, splicedAsc]

/-- **C8.** The test-compatibility patcher is never fatal and splices
exactly once per eligible call: a parse failure or an empty insertion-point
set returns the input unchanged; a call that already has a
`target_compatible_with` argument, or is not a `rust_test` call, yields no
insertion point; a `rust_test` call lacking the argument yields the
position just before its closing parenthesis; and for in-range strictly
ascending positions the output is exactly the original text with one
clause inserted per position, every original segment kept byte-identical.
-/
theorem c8_patcher_behavior (parse : String → Option StStmt)
    (content : String) :
    (parse content = none →
      patch_rust_test_target_compatible_with parse content = content) ∧
    (∀ ast, parse content = some ast →
      collect_rust_test_insert_positions ast = [] →
      patch_rust_test_target_compatible_with parse content = content) ∧
    (∀ ident args spanEnd, (ident ≠ "rust_test" ∨
        call_has_arg args "target_compatible_with" = true) →
      find_rust_test_call (StExpr.call ident args spanEnd) = none) ∧
    (∀ args spanEnd, call_has_arg args "target_compatible_with" = false →
      find_rust_test_call (StExpr.call "rust_test" args (spanEnd + 1)) =
        some spanEnd) ∧
    (∀ ast, parse content = some ast →
      collect_rust_test_insert_positions ast ≠ [] →
      List.Sorted (· < ·)
        ((collect_rust_test_insert_positions ast).mergeSort
          (fun a b => a ≤ b)) →
      (∀ q ∈ (collect_rust_test_insert_positions ast).mergeSort
          (fun a b => a ≤ b), q < content.data.length) →
      (patch_rust_test_target_compatible_with parse content).data =
        splicedAsc content
          ((collect_rust_test_insert_positions ast).mergeSort
            (fun a b => a ≤ b))) := by
  refine ⟨?_, ?_, ?_, ?_, ?_⟩
  · intro h
    unfold patch_rust_test_target_compatible_with
    rw [h]
  · intro ast hp hc
    unfold patch_rust_test_target_compatible_with
    rw [hp]
    simp [hc]
  · intro ident args spanEnd h
    rcases h with h | h
    · simp [find_rust_test_call, h]
    · simp [find_rust_test_call, h]
  · intro args spanEnd h
    simp [find_rust_test_call, insert_pos_before_closing_paren, h]
  · intro ast hp hne hsorted hrange
    unfold patch_rust_test_target_compatible_with
    rw [hp]
    have hempty : ¬ ((collect_rust_test_insert_positions ast).isEmpty = true)
        := by
      simpa [List.isEmpty_iff] using hne
    simp only [hempty, if_false, Bool.false_eq_true]
    exact foldl_splice_spec content _ hsorted hrange

/-- A concrete rendered text with one `rust_test` call lacking
`target_compatible_with` (21 characters; the closing paren is at index
20). -/
def c8content : String := "rust_test(name = \"t\")"

/-- The AST of `c8content`: one expression statement, a `rust_test` call
whose span ends at character 21. -/
def c8ast : StStmt :=
  StStmt.statements
    [StStmt.expression (StExpr.call "rust_test" [SArg.named "name"] 21)]

/-- A parser stub that parses exactly `c8content` to `c8ast`. -/
def c8parse : String → Option StStmt :=
  fun s => if s = c8content then some c8ast else none

/-- Witness for C8: on the concrete one-call text, the patcher's output is
exactly the reference interleaving at position 20. -/
theorem c8_patcher_behavior_witness :
    (patch_rust_test_target_compatible_with c8parse c8content).data =
      splicedAsc c8content
        ((collect_rust_test_insert_positions c8ast).mergeSort
          (fun a b => a ≤ b)) :=
  (c8_patcher_behavior c8parse c8content).2.2.2.2 c8ast rfl (by decide)
    (by
      have hc : collect_rust_test_insert_positions c8ast = [20] := by decide
      rw [hc, List.mergeSort_singleton]
      simp)
    (by
      have hc : collect_rust_test_insert_positions c8ast = [20] := by decide
      rw [hc, List.mergeSort_singleton]
      decide)

end Buckal
